import Mathlib

/-!
# nebuia_copilot: the API client

A shallow embedding of `pkg/models/models.go` and `pkg/api/client.go`.

The client talks to the outside world through library calls only
(`http.NewRequest`, `http.Client.Do`, `encoding/json`, `mime/multipart`,
`time.Sleep`).  Their behaviour is the environment `Env`; every operation
threads a `Trace` of the observable events (round trips, sleeps, decodes)
through its execution and returns the trace it leaves behind.

Conventions:
* a Go error value is identified with its text (`err.Error()`);
* a Go return `(v, err)` is `Outcome.ret v err`, a run-time panic is
  `Outcome.panic`;
* pointer arguments (`*models.File`, `*models.Job`, ...) are taken non-nil;
* `defer resp.Body.Close()` has no effect on results and is not recorded;
* writes of the multipart writer go to an in-memory `bytes.Buffer`, whose
  `Write` never returns an error, so the error branches after
  `CreateFormFile`, `part.Write` and `writer.Close` are unreachable.
-/

set_option linter.dupNamespace false

namespace NebuiaCopilot

/-! ## Data model (`pkg/models/models.go`) -/

/-- Go error values, identified by their message. -/
abbrev GoError := String

/-- A Go `float64`, carried by its bit pattern and never computed with. -/
structure Float64 where
  bits : Nat

/-- A Go `time.Time`, carried as data. -/
structure Time where
  unixNano : Int

/-- A Go slice, keeping the difference between `nil` and an empty slice. -/
inductive Slice (α : Type) where
  | nil : Slice α
  | mk (elems : List α) : Slice α

/-- The elements of a slice; `nil` has none. -/
def Slice.toList {α : Type} : Slice α → List α
  | .nil => []
  | .mk xs => xs

/-- What `encoding/json` stores in an `interface{}`. -/
inductive JSONValue where
  | null : JSONValue
  | bool (b : Bool) : JSONValue
  | number (x : Float64) : JSONValue
  | string (s : String) : JSONValue
  | array (xs : List JSONValue) : JSONValue
  | object (fields : List (String × JSONValue)) : JSONValue

/-- The dynamic value held by an `interface{}` field that the caller fills in. -/
inductive GoValue where
  | bytes (data : List (Fin 256)) : GoValue
  | str (s : String) : GoValue
  | other (typeName : String) : GoValue

/-- The type of a batch (`models.BatchType`), a string type. -/
abbrev BatchType := String

/-- Batch type `execution`. -/
def BatchTypeExecution : BatchType := "execution"

/-- Batch type `testing`. -/
def BatchTypeTesting : BatchType := "testing"

/-- The status of a document (`models.StatusDocument`), a string type. -/
abbrev StatusDocument := String

/-- Status `waiting_process`. -/
def StatusWaitingProcess : StatusDocument := "waiting_process"

/-- Status `processed`. -/
def StatusProcessed : StatusDocument := "processed"

/-- Status `complete`. -/
def StatusComplete : StatusDocument := "complete"

/-- Generic API response (`models.Response`). -/
structure Response where
  Payload : JSONValue
  Status : Bool

/-- Upload request (`models.File`): bytes, a URL string, or anything else. -/
structure File where
  File : GoValue
  TypeDocument : String
  Filename : String

/-- Search parameters of the document search (`models.Search`). -/
structure Search where
  Matches : String
  UUID : String
  MaxResults : Int

/-- Parameters of text extraction (`models.EntityTextExtractor`). -/
structure EntityTextExtractor where
  Text : String
  Schema : GoValue

/-- Parameters of document extraction (`models.EntityDocumentExtractor`). -/
structure EntityDocumentExtractor where
  Matches : String
  Schema : GoValue

/-- A job is an ordered list of files (`models.Job`). -/
structure Job where
  Files : List File

/-- Result of one file upload (`models.UploadResult`). -/
structure UploadResult where
  Success : Bool
  Filename : String
  UUID : String
  ErrorMessage : String
deriving DecidableEq

/-- A document type (`models.DocumentType`). -/
structure DocumentType where
  ID : String
  User : String
  Key : String
  IDTypeDocument : String
  Created : String

/-- An extracted entity (`models.Entity`). -/
structure Entity where
  ID : String
  Key : String
  Value : String
  Page : Int
  IDCore : String
  IsValid : Bool

/-- A document with metadata and entities (`models.Document`). -/
structure Document where
  ID : String
  BatchID : String
  User : String
  UUID : String
  URL : String
  FileName : String
  TypeDocument : String
  StatusDocument : String
  Uploaded : Time
  ReviewedAt : Time
  SourceType : String
  Entities : Slice Entity

/-- A page of documents and the total count (`models.BatchDocumentsResponse`). -/
structure BatchDocumentsResponse where
  Documents : Slice Document
  Total : Int

/-- Parameters of the brain search (`models.SearchParameters`). -/
structure SearchParameters where
  Batch : String
  Param : String
  K : Int
  TypeSearch : String

/-- One brain-search result (`models.Result`). -/
structure Result where
  UUID : String
  Content : String
  Name : String
  Source : JSONValue
  Coincidences : Int
  Score : Float64

/-- Brain-search results (`models.ResultsSearch`). -/
structure ResultsSearch where
  Results : Slice Result

/-- Metadata of a search hit (`models.Meta`). -/
structure Meta where
  Name : String
  Source : Int

/-- Formatted data of a search hit (`models.Formatted`). -/
structure Formatted where
  Content : String
  ID : String
  Meta : Meta

/-- One hit of a document search (`models.Hit`). -/
structure Hit where
  Formatted : Formatted
  Content : String
  ID : Int
  Meta : Meta

/-- Result of a document search (`models.SearchDocument`). -/
structure SearchDocument where
  Hits : Slice Hit
  EstimatedTotalHits : Int
  Limit : Int
  ProcessingTimeMs : Int
  Query : String

/-- The anonymous struct `UploadFile` decodes into. -/
structure UploadEnvelope where
  Status : Bool
  Payload : List String

/-- The anonymous struct `SearchInBrain` decodes into. -/
structure BrainEnvelope where
  Status : Bool
  Payload : ResultsSearch

/-! ## HTTP and the environment -/

/-- One part of a multipart form, as `mime/multipart` writes it. -/
inductive Part where
  | file (fieldname filename : String) (content : List (Fin 256)) : Part
  | field (fieldname value : String) : Part
deriving DecidableEq

/-- The body handed to `http.NewRequest`. -/
inductive RequestBody where
  | nil : RequestBody
  | json (payload : String) : RequestBody
  | multipart (boundary : String) (parts : List Part) : RequestBody
deriving DecidableEq

/-- An outgoing request: method, URL, headers in the order they were set, body. -/
structure Request where
  method : String
  url : String
  header : List (String × String)
  body : RequestBody
deriving DecidableEq

/-- What the client reads of an `http.Response`. -/
structure HTTPResponse where
  StatusCode : Int
  Body : String
deriving DecidableEq

/-- Result of `c.Client.Do(req)`: a transport error or a response. -/
inductive RoundTrip where
  | error (err : GoError) : RoundTrip
  | response (resp : HTTPResponse) : RoundTrip
deriving DecidableEq

/-- Observable events of a run, oldest first. -/
inductive Event where
  | roundTrip (req : Request) (res : RoundTrip) : Event
  | sleep (d : Int) : Event
  | decode (body : String) : Event
deriving DecidableEq

/-- A trace is the list of events so far, oldest first. -/
abbrev Trace := List Event

/-- An event with the contents of the request and the response left out. -/
inductive EventKind where
  | request : EventKind
  | sleep (d : Int) : EventKind
  | decode : EventKind
deriving DecidableEq

/-- The kind of an event. -/
def Event.kind : Event → EventKind
  | .roundTrip _ _ => .request
  | .sleep d => .sleep d
  | .decode _ => .decode

/-- Number of requests handed to the transport in a trace. -/
def requests (tr : Trace) : Nat :=
  tr.countP (fun e => e.kind == .request)

/-- Number of sleeps in a trace. -/
def sleeps (tr : Trace) : Nat :=
  tr.countP (fun e => match e with
    | .sleep _ => true
    | _ => false)

/-- The library calls the client depends on.  The transport and the random
multipart boundary may depend on everything that happened before. -/
structure Env where
  /-- The error of `http.NewRequest(method, url, body)`, if any. -/
  newRequest : String → String → Option GoError
  /-- The boundary `multipart.NewWriter` draws. -/
  randomBoundary : Trace → String
  /-- The call `c.Client.Do(req)`. -/
  roundTrip : Trace → Request → RoundTrip
  marshalEntityTextExtractor : EntityTextExtractor → Except GoError String
  marshalEntityDocumentExtractor : EntityDocumentExtractor → Except GoError String
  marshalSearch : Search → Except GoError String
  marshalCreateBatch : String → String → Except GoError String
  marshalSearchParameters : SearchParameters → Except GoError String
  decodeObject : String → Except GoError (List (String × JSONValue))
  decodeSearchDocument : String → Except GoError SearchDocument
  decodeStatus : String → Except GoError Bool
  decodeDocument : String → Except GoError Document
  decodeBatchDocuments : String → Except GoError BatchDocumentsResponse
  decodeDocumentTypes : String → Except GoError (Slice DocumentType)
  decodeResponse : String → Except GoError Response
  decodeUpload : String → Except GoError UploadEnvelope
  decodeBrain : String → Except GoError BrainEnvelope

/-- How a Go call ends: it returns `(value, err)` or it panics. -/
inductive Outcome (α : Type) where
  | ret (value : α) (err : Option GoError) : Outcome α
  | panic (msg : String) : Outcome α
deriving DecidableEq

/-- The client (`APIClient`); its `Client` field is the transport of `Env`. -/
structure APIClient where
  Key : String
  Secret : String
  BaseURL : String

/-! ## The multipart writer (`mime/multipart`), at the level of parts -/

/-- A `multipart.Writer`: its boundary and the parts written so far. -/
structure Writer where
  boundary : String
  parts : List Part

/-- The call `multipart.NewWriter(body)` with the boundary it drew. -/
def NewWriter (boundary : String) : Writer :=
  ⟨boundary, []⟩

/-- The call `writer.CreateFormFile(fieldname, filename)`: opens a file part. -/
def Writer.CreateFormFile (w : Writer) (fieldname filename : String) : Writer :=
  { w with parts := w.parts ++ [Part.file fieldname filename []] }

/-- The call `part.Write(data)` on the part opened last. -/
def Writer.partWrite (w : Writer) (data : List (Fin 256)) : Writer :=
  match w.parts.getLast? with
  | some (Part.file fieldname filename content) =>
    { w with parts := w.parts.dropLast ++ [Part.file fieldname filename (content ++ data)] }
  | _ => w

/-- The call `writer.WriteField(fieldname, value)`. -/
def Writer.WriteField (w : Writer) (fieldname value : String) : Writer :=
  { w with parts := w.parts ++ [Part.field fieldname value] }

/-- The call `writer.FormDataContentType()`. -/
def Writer.FormDataContentType (w : Writer) : String :=
  "multipart/form-data; boundary=" ++ w.boundary

/-! ## `UploadFile` -/

/-- Lines 331-350: the form written in one attempt, `none` for a payload
that is neither `[]byte` nor `string`. -/
def uploadForm (file : File) (boundary : String) : Option Writer :=
  let writer := NewWriter boundary
  let written : Option Writer :=
    match file.File with
    | .bytes fileData => some ((writer.CreateFormFile "file" file.Filename).partWrite fileData)
    | .str fileURL =>
      some ((writer.WriteField "file_url" fileURL).WriteField "file_name" file.Filename)
    | .other _ => none
  match written with
  | none => none
  | some writer => some (writer.WriteField "type_document" file.TypeDocument)

/-- Lines 357-364: the request of one attempt.  `Header.Set` stores a header
under its canonical name, so `key` and `secret` are kept as `Key` and `Secret`. -/
def uploadRequest (c : APIClient) (url : String) (writer : Writer) : Request :=
  { method := "POST"
    url := url
    header := [("Content-Type", writer.FormDataContentType), ("Key", c.Key), ("Secret", c.Secret)]
    body := RequestBody.multipart writer.boundary writer.parts }

/-- How one pass through the loop body ends: with a `return` or by going on
to the next attempt. -/
inductive Attempt where
  | done (out : Outcome (Option UploadResult)) (tr : Trace) : Attempt
  | next (tr : Trace) : Attempt

/-- The loop body of `UploadFile` (lines 331-405) for one value of `attempt`. -/
def uploadAttempt (env : Env) (c : APIClient) (file : File) (url : String)
    (maxRetries retryDelay attempt : Int) (tr : Trace) : Attempt :=
  match uploadForm file (env.randomBoundary tr) with
  | none => .done (.ret none (some "unsupported file type")) tr
  | some writer =>
    match env.newRequest "POST" url with
    | some err => .done (.ret none (some err)) tr
    | none =>
      let req := uploadRequest c url writer
      match env.roundTrip tr req with
      | .error err =>
        if attempt = maxRetries - 1 then
          .done (.ret (some ⟨false, file.Filename, "", err⟩) none)
            (tr ++ [Event.roundTrip req (.error err)])
        else
          .next (tr ++ [Event.roundTrip req (.error err), Event.sleep retryDelay])
      | .response resp =>
        let tr1 := tr ++ [Event.roundTrip req (.response resp), Event.decode resp.Body]
        match env.decodeUpload resp.Body with
        | .error err => .done (.ret none (some err)) tr1
        | .ok result =>
          if result.Status then
            match result.Payload with
            | [] => .done (.panic "runtime error: index out of range [0] with length 0") tr1
            | uuid :: _ => .done (.ret (some ⟨true, file.Filename, uuid, ""⟩) none) tr1
          else if attempt = maxRetries - 1 then
            .done (.ret (some ⟨false, file.Filename, "", "max retries reached"⟩) none) tr1
          else
            .next (tr1 ++ [Event.sleep retryDelay])

/-- The loop `for attempt := 0; attempt < maxRetries; attempt++` and the
`return` after it (lines 330-412).  The first argument bounds the number of
passes; `UploadFile` starts it with `maxRetries` passes, which `attempt`
cannot outlast. -/
def uploadLoop (env : Env) (c : APIClient) (file : File) (url : String)
    (maxRetries retryDelay : Int) : Nat → Int → Trace → Outcome (Option UploadResult) × Trace
  | 0, _, tr => (.ret (some ⟨false, file.Filename, "", "max retries reached"⟩) none, tr)
  | fuel + 1, attempt, tr =>
    if attempt < maxRetries then
      match uploadAttempt env c file url maxRetries retryDelay attempt tr with
      | .done out tr1 => (out, tr1)
      | .next tr1 => uploadLoop env c file url maxRetries retryDelay fuel (attempt + 1) tr1
    else
      (.ret (some ⟨false, file.Filename, "", "max retries reached"⟩) none, tr)

/-- `UploadFile` uploads a file to a batch, trying up to `maxRetries` times. -/
def UploadFile (env : Env) (c : APIClient) (file : File) (batchID : String)
    (maxRetries retryDelay : Int) (tr : Trace) : Outcome (Option UploadResult) × Trace :=
  let url := c.BaseURL ++ "/integrator/append/to/batch/" ++ batchID
  uploadLoop env c file url maxRetries retryDelay maxRetries.toNat 0 tr

/-! ## `AppendJob` -/

/-- A Go `map[string][]models.UploadResult`, as the list of its entries. -/
abbrev ResultMap := List (String × List UploadResult)

/-- The map index expression `m[key]`; a missing key gives the `nil` slice. -/
def mapIndex (m : ResultMap) (key : String) : List UploadResult :=
  match m.lookup key with
  | some v => v
  | none => []

/-- The map assignment `m[key] = v`. -/
def mapAssign (m : ResultMap) (key : String) (v : List UploadResult) : ResultMap :=
  if m.any (fun kv => kv.1 == key) then
    m.map (fun kv => if kv.1 == key then (kv.1, v) else kv)
  else
    m ++ [(key, v)]

/-- The loop `for _, file := range job.Files` of `AppendJob` (lines 422-434). -/
def appendLoop (env : Env) (c : APIClient) (batchID : String) (maxRetries retryDelay : Int) :
    List File → ResultMap → Trace → Outcome (Option ResultMap) × Trace
  | [], results, tr => (.ret (some results) none, tr)
  | file :: rest, results, tr =>
    match UploadFile env c file batchID maxRetries retryDelay tr with
    | (.panic msg, tr1) => (.panic msg, tr1)
    | (.ret _ (some err), tr1) => (.ret none (some err), tr1)
    | (.ret none none, tr1) =>
      (.panic "runtime error: invalid memory address or nil pointer dereference", tr1)
    | (.ret (some result) none, tr1) =>
      if result.Success then
        appendLoop env c batchID maxRetries retryDelay rest
          (mapAssign results "successful" (mapIndex results "successful" ++ [result])) tr1
      else
        appendLoop env c batchID maxRetries retryDelay rest
          (mapAssign results "failed" (mapIndex results "failed" ++ [result])) tr1

/-- `AppendJob` uploads all files of a job to a batch. -/
def AppendJob (env : Env) (c : APIClient) (job : Job) (batchID : String)
    (maxRetries retryDelay : Int) (tr : Trace) : Outcome (Option ResultMap) × Trace :=
  appendLoop env c batchID maxRetries retryDelay job.Files [("successful", []), ("failed", [])] tr

/-! ## `sendRequest` and the operations built on it -/

/-- Lines 491-498: the request `sendRequest` builds.  `Header.Set` stores a
header under its canonical name, so `key` and `secret` are kept as `Key` and
`Secret`. -/
def jsonRequest (c : APIClient) (method url : String) (body : RequestBody) : Request :=
  { method := method
    url := url
    header := [("Content-Type", "application/json"), ("Key", c.Key), ("Secret", c.Secret)]
    body := body }

/-- `sendRequest` (lines 490-510): build the request, send it, require 200. -/
def sendRequest (env : Env) (c : APIClient) (method url : String) (body : RequestBody)
    (tr : Trace) : Except GoError HTTPResponse × Trace :=
  match env.newRequest method url with
  | some err => (.error err, tr)
  | none =>
    let req := jsonRequest c method url body
    match env.roundTrip tr req with
    | .error err => (.error err, tr ++ [Event.roundTrip req (.error err)])
    | .response resp =>
      let tr1 := tr ++ [Event.roundTrip req (.response resp)]
      if resp.StatusCode ≠ 200 then
        (.error ("API request failed with status code: " ++ toString resp.StatusCode), tr1)
      else
        (.ok resp, tr1)

/-- The steps every operation below shares after its URL and body are built:
`sendRequest`, return `(zero, err)` on its error, decode the body, return
`(zero, err)` on a decode error, and finish with the decoded value. -/
def sendAndDecode {α β : Type} (env : Env) (c : APIClient) (method url : String)
    (body : RequestBody) (decode : String → Except GoError β) (zero : α)
    (finish : β → Outcome α) (tr : Trace) : Outcome α × Trace :=
  match sendRequest env c method url body tr with
  | (.error err, tr1) => (.ret zero (some err), tr1)
  | (.ok resp, tr1) =>
    match decode resp.Body with
    | .error err => (.ret zero (some err), tr1 ++ [Event.decode resp.Body])
    | .ok result => (finish result, tr1 ++ [Event.decode resp.Body])

/-- The name the Go runtime gives the dynamic type of a decoded JSON value;
a missing map entry is the `nil` interface. -/
def dynamicTypeName : Option JSONValue → String
  | none => "nil"
  | some .null => "nil"
  | some (.bool _) => "bool"
  | some (.number _) => "float64"
  | some (.string _) => "string"
  | some (.array _) => "[]interface {}"
  | some (.object _) => "map[string]interface {}"

/-- The expression `result["payload"].(map[string]interface{})`: a failed
type assertion panics, naming the dynamic type it found. -/
def payloadObject (result : List (String × JSONValue)) :
    Outcome (Option (List (String × JSONValue))) :=
  match result.lookup "payload" with
  | some (.object fields) => .ret (some fields) none
  | other =>
    .panic ("interface conversion: interface {} is " ++ dynamicTypeName other ++
      ", not map[string]interface {}")

/-- `ExtractorFromText` (lines 35-55). -/
def ExtractorFromText (env : Env) (c : APIClient) (data : EntityTextExtractor) (tr : Trace) :
    Outcome (Option (List (String × JSONValue))) × Trace :=
  let url := c.BaseURL ++ "/integrator/extractor/from/text"
  match env.marshalEntityTextExtractor data with
  | .error err => (.ret none (some err), tr)
  | .ok payload =>
    sendAndDecode env c "POST" url (.json payload) env.decodeObject none payloadObject tr

/-- `ExtractorFromDocumentUUID` (lines 58-78). -/
def ExtractorFromDocumentUUID (env : Env) (c : APIClient) (uuid : String)
    (data : EntityDocumentExtractor) (tr : Trace) :
    Outcome (Option (List (String × JSONValue))) × Trace :=
  let url := c.BaseURL ++ "/integrator/extractor/from/document/" ++ uuid
  match env.marshalEntityDocumentExtractor data with
  | .error err => (.ret none (some err), tr)
  | .ok payload =>
    sendAndDecode env c "POST" url (.json payload) env.decodeObject none payloadObject tr

/-- `SearchInDocument` (lines 81-103). -/
def SearchInDocument (env : Env) (c : APIClient) (search : Search) (tr : Trace) :
    Outcome (Option SearchDocument) × Trace :=
  let url := c.BaseURL ++ "/integrator/document/search"
  match env.marshalSearch search with
  | .error err => (.ret none (some err), tr)
  | .ok payload =>
    sendAndDecode env c "POST" url (.json payload) env.decodeSearchDocument none
      (fun result => .ret (some result) none) tr

/-- `SetDocumentStatus` (lines 106-124). -/
def SetDocumentStatus (env : Env) (c : APIClient) (uuid : String) (status : StatusDocument)
    (tr : Trace) : Outcome Bool × Trace :=
  let url := c.BaseURL ++ "/integrator/documents/set/status/" ++ uuid ++ "/" ++ status
  sendAndDecode env c "GET" url .nil env.decodeStatus false (fun result => .ret result none) tr

/-- `GetDocumentByUUID` (lines 127-145). -/
def GetDocumentByUUID (env : Env) (c : APIClient) (uuid : String) (tr : Trace) :
    Outcome (Option Document) × Trace :=
  let url := c.BaseURL ++ "/integrator/document/get/by/uuid/" ++ uuid
  sendAndDecode env c "GET" url .nil env.decodeDocument none
    (fun result => .ret (some result) none) tr

/-- `GetDocumentsByStatus` (lines 148-166). -/
def GetDocumentsByStatus (env : Env) (c : APIClient) (status : StatusDocument)
    (page limit : Int) (tr : Trace) : Outcome (Option BatchDocumentsResponse) × Trace :=
  let url := c.BaseURL ++ "/integrator/documents/by/status/" ++ status
    ++ "?page=" ++ toString page ++ "&limit=" ++ toString limit
  sendAndDecode env c "GET" url .nil env.decodeBatchDocuments none
    (fun result => .ret (some result) none) tr

/-- `GetDocumentsByStatusAndBatch` (lines 169-187). -/
def GetDocumentsByStatusAndBatch (env : Env) (c : APIClient) (status : StatusDocument)
    (batchType : BatchType) (page limit : Int) (tr : Trace) :
    Outcome (Option BatchDocumentsResponse) × Trace :=
  let url := c.BaseURL ++ "/integrator/documents/by/" ++ batchType ++ "/status/" ++ status
    ++ "?page=" ++ toString page ++ "&limit=" ++ toString limit
  sendAndDecode env c "GET" url .nil env.decodeBatchDocuments none
    (fun result => .ret (some result) none) tr

/-- `GetDocumentsByBatch` (lines 190-208). -/
def GetDocumentsByBatch (env : Env) (c : APIClient) (idBatch : String) (page limit : Int)
    (tr : Trace) : Outcome (Option BatchDocumentsResponse) × Trace :=
  let url := c.BaseURL ++ "/integrator/documents/by/id/batch/" ++ idBatch
    ++ "?page=" ++ toString page ++ "&limit=" ++ toString limit
  sendAndDecode env c "GET" url .nil env.decodeBatchDocuments none
    (fun result => .ret (some result) none) tr

/-- `ClearDocumentByUUID` (lines 211-229). -/
def ClearDocumentByUUID (env : Env) (c : APIClient) (uuid : String) (tr : Trace) :
    Outcome Bool × Trace :=
  let url := c.BaseURL ++ "/integrator/clear/document/" ++ uuid
  sendAndDecode env c "GET" url .nil env.decodeStatus false (fun result => .ret result none) tr

/-- `DeleteBatch` (lines 232-250). -/
def DeleteBatch (env : Env) (c : APIClient) (batchID : String) (tr : Trace) :
    Outcome Bool × Trace :=
  let url := c.BaseURL ++ "/integrator/delete/batch/" ++ batchID
  sendAndDecode env c "DELETE" url .nil env.decodeStatus false (fun result => .ret result none) tr

/-- `DeleteDocumentFromBatch` (lines 253-271). -/
def DeleteDocumentFromBatch (env : Env) (c : APIClient) (uuid : String) (tr : Trace) :
    Outcome Bool × Trace :=
  let url := c.BaseURL ++ "/integrator/delete/by/uuid/" ++ uuid
  sendAndDecode env c "DELETE" url .nil env.decodeStatus false (fun result => .ret result none) tr

/-- `GetDocumentTypes` (lines 274-292). -/
def GetDocumentTypes (env : Env) (c : APIClient) (tr : Trace) :
    Outcome (Slice DocumentType) × Trace :=
  let url := c.BaseURL ++ "/integrator/documents/type/all/user"
  sendAndDecode env c "GET" url .nil env.decodeDocumentTypes Slice.nil
    (fun result => .ret result none) tr

/-- `CreateBatch` (lines 295-324). -/
def CreateBatch (env : Env) (c : APIClient) (name : String) (batchType : BatchType)
    (tr : Trace) : Outcome (Option Response) × Trace :=
  let url := c.BaseURL ++ "/integrator/create/batch"
  match env.marshalCreateBatch name batchType with
  | .error err => (.ret none (some err), tr)
  | .ok payload =>
    sendAndDecode env c "POST" url (.json payload) env.decodeResponse none
      (fun result => .ret (some result) none) tr

/-- `SearchInBrain` (lines 438-466). -/
def SearchInBrain (env : Env) (c : APIClient) (searchParams : SearchParameters) (tr : Trace) :
    Outcome (Option ResultsSearch) × Trace :=
  let url := c.BaseURL ++ "/integrator/search/brain"
  match env.marshalSearchParameters searchParams with
  | .error err => (.ret none (some err), tr)
  | .ok payload =>
    sendAndDecode env c "POST" url (.json payload) env.decodeBrain none
      (fun result =>
        if !result.Status then
          .ret (some ⟨Slice.mk []⟩) none
        else
          .ret (some result.Payload) none) tr

/-- `ProcessItem` (lines 469-487). -/
def ProcessItem (env : Env) (c : APIClient) (batchID : String) (tr : Trace) :
    Outcome Bool × Trace :=
  let url := c.BaseURL ++ "/integrator/run/qa/batch/all/" ++ batchID
  sendAndDecode env c "POST" url .nil env.decodeStatus false (fun result => .ret result none) tr

/-! ## Specification-side definitions -/

/-- The payload of a file is a byte slice or a string. -/
def supported (file : File) : Bool :=
  match file.File with
  | .bytes _ => true
  | .str _ => true
  | .other _ => false

/-- The form parts the specification prescribes for a file: a file part
`file` and the field `type_document` for bytes; the fields `file_url`,
`file_name` and `type_document` for a URL string. -/
def formParts (file : File) : List Part :=
  match file.File with
  | .bytes b => [Part.file "file" file.Filename b, Part.field "type_document" file.TypeDocument]
  | .str u =>
    [Part.field "file_url" u, Part.field "file_name" file.Filename,
      Part.field "type_document" file.TypeDocument]
  | .other _ => []

/-- The URL `UploadFile` posts to. -/
def uploadURL (c : APIClient) (batchID : String) : String :=
  c.BaseURL ++ "/integrator/append/to/batch/" ++ batchID

/-- Uploading the files of a list one after the other, each call starting in
the state the previous one left: the results and the final trace when every
call returns a result and no error, `none` as soon as a call returns an error
or does not return. -/
def uploadAll (env : Env) (c : APIClient) (batchID : String) (maxRetries retryDelay : Int) :
    List File → Trace → Option (List UploadResult × Trace)
  | [], tr => some ([], tr)
  | file :: rest, tr =>
    match UploadFile env c file batchID maxRetries retryDelay tr with
    | (.ret (some result) none, tr1) =>
      match uploadAll env c batchID maxRetries retryDelay rest tr1 with
      | some (results, tr2) => some (result :: results, tr2)
      | none => none
    | _ => none

/-- A run that started in trace `tr` rejects a response that is not 200: if
one of the events it added is a round trip answered with status code `code`
other than 200, the run returned `zero` and an error naming `code`, and it
decoded no body. -/
def RejectsNon200 {α : Type} (zero : α) (tr : Trace) (run : Outcome α × Trace) : Prop :=
  ∀ (evs : Trace) (req : Request) (code : Int) (body : String),
    run.2 = tr ++ evs → Event.roundTrip req (.response ⟨code, body⟩) ∈ evs → code ≠ 200 →
      run.1 = .ret zero (some ("API request failed with status code: " ++ toString code)) ∧
      ∀ b, Event.decode b ∉ evs

/-- The request `(method, url, body)` of `sendRequest` can be built, and in
trace `tr` the transport answers it with status code `code` and body
`respBody`. -/
def Answered (env : Env) (c : APIClient) (tr : Trace) (method url : String)
    (body : RequestBody) (code : Int) (respBody : String) : Prop :=
  env.newRequest method url = none ∧
  env.roundTrip tr (jsonRequest c method url body) = .response ⟨code, respBody⟩

/-- The run prescribed for an operation whose request `(method, url, body)`
is answered with status code `code` other than 200: it returns `zero` and the
error naming `code`, and the round trip is the only event it adds. -/
def rejectedRun {α : Type} (zero : α) (c : APIClient) (tr : Trace) (method url : String)
    (body : RequestBody) (code : Int) (respBody : String) : Outcome α × Trace :=
  (.ret zero (some ("API request failed with status code: " ++ toString code)),
    tr ++ [Event.roundTrip (jsonRequest c method url body) (.response ⟨code, respBody⟩)])

/-! ## Sample environments, used to instantiate the theorems -/

/-- A sample decoder of the upload envelope: four fixed bodies. -/
def sampleDecodeUpload (body : String) : Except GoError UploadEnvelope :=
  if body = "accepted" then .ok ⟨true, ["abc-123"]⟩
  else if body = "rejected" then .ok ⟨false, []⟩
  else if body = "bare" then .ok ⟨true, []⟩
  else .error "invalid character"

/-- A sample decoder of the brain envelope: two fixed bodies. -/
def sampleDecodeBrain (body : String) : Except GoError BrainEnvelope :=
  if body = "hit" then .ok ⟨true, ⟨Slice.mk [⟨"u1", "text", "", .null, 1, ⟨0⟩⟩]⟩⟩
  else if body = "rejected" then .ok ⟨false, ⟨Slice.nil⟩⟩
  else .error "invalid character"

/-- A sample environment around a given transport: requests can always be
built, marshalling succeeds, and bodies are decoded by the sample decoders. -/
def sampleEnv (transport : Trace → Request → RoundTrip) : Env where
  newRequest := fun _ _ => none
  randomBoundary := fun tr => if requests tr = 0 then "b0" else "b1"
  roundTrip := transport
  marshalEntityTextExtractor := fun data => .ok data.Text
  marshalEntityDocumentExtractor := fun data => .ok data.Matches
  marshalSearch := fun search => .ok search.Matches
  marshalCreateBatch := fun name _ => .ok name
  marshalSearchParameters := fun p => .ok p.Param
  decodeObject := fun _ => .error "invalid character"
  decodeSearchDocument := fun _ => .error "invalid character"
  decodeStatus := fun body =>
    if body = "true" then .ok true else if body = "false" then .ok false
    else .error "invalid character"
  decodeDocument := fun _ => .error "invalid character"
  decodeBatchDocuments := fun _ => .error "invalid character"
  decodeDocumentTypes := fun _ => .error "invalid character"
  decodeResponse := fun _ => .error "invalid character"
  decodeUpload := sampleDecodeUpload
  decodeBrain := sampleDecodeBrain

/-- Whether a string holds an ASCII control character. -/
def hasControlChar (s : String) : Bool :=
  s.data.any (fun ch => ch.toNat < 32 || ch.toNat == 127)

/-- A sample `http.NewRequest` that, like the URL parser of Go, refuses a URL
holding an ASCII control character; the error is given by its cause. -/
def strictNewRequest (_method url : String) : Option GoError :=
  if hasControlChar url then some "net/url: invalid control character in URL" else none

/-- The sample environment with `strictNewRequest` for `http.NewRequest`. -/
def strictEnv (transport : Trace → Request → RoundTrip) : Env :=
  { sampleEnv transport with newRequest := strictNewRequest }

/-- A transport on which every call fails. -/
def downTransport : Trace → Request → RoundTrip :=
  fun _ _ => .error "connection refused"

/-- A transport that answers every call with the given status code and body. -/
def fixedTransport (code : Int) (body : String) : Trace → Request → RoundTrip :=
  fun _ _ => .response ⟨code, body⟩

/-- A transport whose first `k` calls fail and whose later calls get the
given body with status 200. -/
def flakyTransport (k : Nat) (body : String) : Trace → Request → RoundTrip :=
  fun tr _ => if requests tr < k then .error "connection reset" else .response ⟨200, body⟩

/-- A transport that fails for the file named `two.pdf` and accepts the rest. -/
def pickyTransport : Trace → Request → RoundTrip :=
  fun _ req =>
    match req.body with
    | .multipart _ (Part.file _ filename _ :: _) =>
      if filename = "two.pdf" then .error "timeout" else .response ⟨200, "accepted"⟩
    | _ => .response ⟨200, "accepted"⟩

/-- A transport that answers the upload of the file named `two.pdf` with a
status-true envelope without payload entry, and accepts the rest. -/
def emptyPayloadTransport : Trace → Request → RoundTrip :=
  fun _ req =>
    match req.body with
    | .multipart _ (Part.file _ filename _ :: _) =>
      if filename = "two.pdf" then .response ⟨200, "bare"⟩ else .response ⟨200, "accepted"⟩
    | _ => .response ⟨200, "accepted"⟩

/-- A sample client. -/
def sampleClient : APIClient := ⟨"k", "s", "https://api.example"⟩

/-- A sample file with a bytes payload. -/
def sampleBytesFile : File := ⟨.bytes [1, 2, 3], "invoice", "a.pdf"⟩

/-- A sample file with a URL payload. -/
def sampleURLFile : File := ⟨.str "https://files.example/a.pdf", "invoice", "a.pdf"⟩

/-- A sample file whose payload is an `int`. -/
def sampleOtherFile : File := ⟨.other "int", "invoice", "a.pdf"⟩

/-- A sample job of three files; the transport `pickyTransport` fails the second. -/
def sampleJob : Job :=
  ⟨[⟨.bytes [1], "invoice", "one.pdf"⟩, ⟨.bytes [2], "invoice", "two.pdf"⟩,
    ⟨.bytes [3], "receipt", "three.pdf"⟩]⟩

/-- The events of uploading `sampleBytesFile` when the first call of the
transport fails and the second is answered with the body `accepted`. -/
def sampleRetryEvents : Trace :=
  [Event.roundTrip
      (uploadRequest sampleClient (uploadURL sampleClient "b1") ⟨"b0", formParts sampleBytesFile⟩)
      (.error "connection reset"),
    Event.sleep 5,
    Event.roundTrip
      (uploadRequest sampleClient (uploadURL sampleClient "b1") ⟨"b1", formParts sampleBytesFile⟩)
      (.response ⟨200, "accepted"⟩),
    Event.decode "accepted"]

/-- Sample search parameters. -/
def sampleSearchParameters : SearchParameters := ⟨"b1", "total amount", 3, "semantic"⟩

/-! ## Lemmas on the upload form, traces and the upload loop -/

theorem uploadForm_supported (file : File) (boundary : String) (h : supported file = true) :
    uploadForm file boundary = some ⟨boundary, formParts file⟩ := by
  unfold supported at h
  unfold uploadForm formParts
  cases hf : file.File with
  | bytes b => simp [NewWriter, Writer.CreateFormFile, Writer.partWrite, Writer.WriteField]
  | str u => simp [NewWriter, Writer.WriteField]
  | other t => simp [hf] at h

theorem uploadForm_unsupported (file : File) (boundary : String) (h : supported file = false) :
    uploadForm file boundary = none := by
  unfold supported at h
  unfold uploadForm
  cases hf : file.File with
  | bytes b => simp [hf] at h
  | str u => simp [hf] at h
  | other t => simp

theorem requests_append (a b : Trace) : requests (a ++ b) = requests a + requests b := by
  simp [requests, List.countP_append]

theorem sleeps_append (a b : Trace) : sleeps (a ++ b) = sleeps a + sleeps b := by
  simp [sleeps, List.countP_append]

theorem requests_cons (e : Event) (a : Trace) :
    requests (e :: a) = (if e.kind = EventKind.request then 1 else 0) + requests a := by
  cases e <;> simp [requests, Event.kind, List.countP_cons, Nat.add_comm]

theorem sleeps_cons (e : Event) (a : Trace) :
    sleeps (e :: a) = (match e with
      | .sleep _ => 1
      | _ => 0) + sleeps a := by
  cases e <;> simp [sleeps, List.countP_cons, Nat.add_comm]

theorem uploadLoop_nonpositive (env : Env) (c : APIClient) (file : File) (url : String)
    (maxRetries d : Int) (fuel : Nat) (attempt : Int) (tr : Trace) (h : maxRetries ≤ attempt) :
    uploadLoop env c file url maxRetries d fuel attempt tr =
      (.ret (some ⟨false, file.Filename, "", "max retries reached"⟩) none, tr) := by
  cases fuel with
  | zero => rfl
  | succ f =>
    have h1 : ¬ attempt < maxRetries := by omega
    simp only [uploadLoop, if_neg h1]

/-- The bound on the number of passes is never what ends the loop: any two
bounds of at least `maxRetries - attempt` give the same run. -/
theorem uploadLoop_fuel (env : Env) (c : APIClient) (file : File) (url : String)
    (maxRetries d : Int) :
    ∀ (fuel1 fuel2 : Nat) (attempt : Int) (tr : Trace),
      (maxRetries - attempt).toNat ≤ fuel1 → (maxRetries - attempt).toNat ≤ fuel2 →
        uploadLoop env c file url maxRetries d fuel1 attempt tr =
          uploadLoop env c file url maxRetries d fuel2 attempt tr := by
  intro fuel1
  induction fuel1 with
  | zero =>
    intro fuel2 attempt tr h1 _
    rw [uploadLoop_nonpositive env c file url maxRetries d 0 attempt tr (by omega),
      uploadLoop_nonpositive env c file url maxRetries d fuel2 attempt tr (by omega)]
  | succ f1 ih =>
    intro fuel2 attempt tr h1 h2
    by_cases hlt : attempt < maxRetries
    · obtain ⟨f2, rfl⟩ : ∃ f2, fuel2 = f2 + 1 := ⟨fuel2 - 1, by omega⟩
      simp only [uploadLoop, if_pos hlt]
      cases uploadAttempt env c file url maxRetries d attempt tr with
      | done out tr1 => rfl
      | next tr1 => exact ih f2 (attempt + 1) tr1 (by omega) (by omega)
    · rw [uploadLoop_nonpositive env c file url maxRetries d (f1 + 1) attempt tr (by omega),
        uploadLoop_nonpositive env c file url maxRetries d fuel2 attempt tr (by omega)]

theorem uploadLoop_transport_failure (env : Env) (c : APIClient) (file : File) (url : String)
    (maxRetries d : Int) (hfile : supported file = true)
    (hreq : env.newRequest "POST" url = none)
    (hfail : ∀ t req, ∃ err, env.roundTrip t req = .error err) (j : Nat) :
    ∀ (fuel : Nat) (attempt : Int) (tr : Trace), j < fuel → attempt + (j + 1) = maxRetries →
      ∃ pre req err,
        uploadLoop env c file url maxRetries d fuel attempt tr =
          (.ret (some ⟨false, file.Filename, "", err⟩) none,
            tr ++ (pre ++ [Event.roundTrip req (.error err)])) ∧
        (pre ++ [Event.roundTrip req (.error err)]).map Event.kind =
          List.intersperse (EventKind.sleep d) (List.replicate (j + 1) EventKind.request) ∧
        requests (pre ++ [Event.roundTrip req (.error err)]) = j + 1 ∧
        sleeps (pre ++ [Event.roundTrip req (.error err)]) = j := by
  induction j with
  | zero =>
    intro fuel attempt tr hf ha
    obtain ⟨f, rfl⟩ : ∃ f, fuel = f + 1 := ⟨fuel - 1, by omega⟩
    obtain ⟨err, herr⟩ := hfail tr (uploadRequest c url ⟨env.randomBoundary tr, formParts file⟩)
    refine ⟨[], uploadRequest c url ⟨env.randomBoundary tr, formParts file⟩, err, ?_, ?_, ?_, ?_⟩
    · have h1 : attempt < maxRetries := by omega
      have h2 : attempt = maxRetries - 1 := by omega
      simp only [uploadLoop, if_pos h1, uploadAttempt, uploadForm_supported file _ hfile, hreq,
        herr, if_pos h2, List.nil_append]
    · simp [Event.kind]
    · simp [requests, Event.kind]
    · simp [sleeps]
  | succ j ih =>
    intro fuel attempt tr hf ha
    obtain ⟨f, rfl⟩ : ∃ f, fuel = f + 1 := ⟨fuel - 1, by omega⟩
    obtain ⟨err, herr⟩ := hfail tr (uploadRequest c url ⟨env.randomBoundary tr, formParts file⟩)
    have h1 : attempt < maxRetries := by omega
    have h2 : ¬ attempt = maxRetries - 1 := by omega
    obtain ⟨pre, req, err2, hrun, hkind, hreqs, hsl⟩ := ih f (attempt + 1)
      (tr ++ [Event.roundTrip (uploadRequest c url ⟨env.randomBoundary tr, formParts file⟩)
        (.error err), Event.sleep d]) (by omega) (by omega)
    refine ⟨[Event.roundTrip (uploadRequest c url ⟨env.randomBoundary tr, formParts file⟩)
        (.error err), Event.sleep d] ++ pre, req, err2, ?_, ?_, ?_, ?_⟩
    · simp only [uploadLoop, if_pos h1, uploadAttempt, uploadForm_supported file _ hfile, hreq,
        herr, if_neg h2, hrun, List.append_assoc]
    · rw [List.append_assoc, List.map_append, hkind]
      simp [Event.kind, List.replicate_succ]
    · rw [List.append_assoc, requests_append, hreqs]
      simp [requests, Event.kind]
      omega
    · rw [List.append_assoc, sleeps_append, hsl]
      simp [sleeps]
      omega

/-! ## C1 -/

/-- C1 (amended): with `maxRetries = N >= 1`, a file whose payload is bytes
or a URL string, a request that can be built and a transport on which every
call fails, `UploadFile` issues exactly `N` requests with a sleep of `d`
between consecutive ones and none after the last, and returns no error and a
result with `Success = false`, the filename of the file and the text of the
transport error of the last attempt. -/
theorem UploadFile_transport_failure (env : Env) (c : APIClient) (file : File)
    (batchID : String) (N : Nat) (d : Int) (tr : Trace)
    (hfile : supported file = true) (hN : 1 ≤ N)
    (hreq : env.newRequest "POST" (uploadURL c batchID) = none)
    (hfail : ∀ t req, ∃ err, env.roundTrip t req = .error err) :
    ∃ pre req err,
      UploadFile env c file batchID N d tr =
        (.ret (some ⟨false, file.Filename, "", err⟩) none,
          tr ++ (pre ++ [Event.roundTrip req (.error err)])) ∧
      (pre ++ [Event.roundTrip req (.error err)]).map Event.kind =
        List.intersperse (EventKind.sleep d) (List.replicate N EventKind.request) ∧
      requests (pre ++ [Event.roundTrip req (.error err)]) = N ∧
      sleeps (pre ++ [Event.roundTrip req (.error err)]) = N - 1 := by
  obtain ⟨j, rfl⟩ : ∃ j, N = j + 1 := ⟨N - 1, by omega⟩
  have h := uploadLoop_transport_failure env c file (uploadURL c batchID) ((j + 1 : Nat) : Int) d
    hfile hreq hfail j (j + 1) 0 tr (by omega) (by push_cast; omega)
  simpa [UploadFile, uploadURL] using h

/-- Witness for C1 (amended): three attempts against a transport that is down. -/
theorem UploadFile_transport_failure_witness :
    supported sampleBytesFile = true ∧
    ∃ pre req err,
      UploadFile (sampleEnv downTransport) sampleClient sampleBytesFile "b1" (3 : Nat) 5 [] =
        (.ret (some ⟨false, sampleBytesFile.Filename, "", err⟩) none,
          [] ++ (pre ++ [Event.roundTrip req (.error err)])) ∧
      (pre ++ [Event.roundTrip req (.error err)]).map Event.kind =
        List.intersperse (EventKind.sleep 5) (List.replicate 3 EventKind.request) ∧
      requests (pre ++ [Event.roundTrip req (.error err)]) = 3 ∧
      sleeps (pre ++ [Event.roundTrip req (.error err)]) = 3 - 1 :=
  ⟨by decide,
    UploadFile_transport_failure (sampleEnv downTransport) sampleClient sampleBytesFile "b1" 3 5 []
      (by decide) (by decide) rfl (fun _ _ => ⟨"connection refused", rfl⟩)⟩

/-- Counterexample to C1 as stated, in two parts.  With `maxRetries = 0` and a
transport whose every call fails with `connection refused`, `UploadFile`
returns the message `max retries reached`, which is the text of no transport
error.  With `maxRetries = 3`, the same transport and a batch id that ends in
a line feed, the request cannot be built: `UploadFile` returns an error and
no result, and no request reaches the transport. -/
theorem transport_failure_counterexample :
    ((∀ t req, (sampleEnv downTransport).roundTrip t req = .error "connection refused") ∧
      UploadFile (sampleEnv downTransport) sampleClient sampleBytesFile "b1" 0 5 [] =
        (.ret (some ⟨false, "a.pdf", "", "max retries reached"⟩) none, []) ∧
      ¬ ∃ t req, (sampleEnv downTransport).roundTrip t req = .error "max retries reached") ∧
    ((∀ t req, (strictEnv downTransport).roundTrip t req = .error "connection refused") ∧
      supported sampleBytesFile = true ∧
      ∃ err,
        UploadFile (strictEnv downTransport) sampleClient sampleBytesFile "b1\x0a" 3 5 [] =
          (.ret none (some err), [])) := by
  refine ⟨⟨fun _ _ => rfl, by decide, ?_⟩, fun _ _ => rfl, by decide,
    ⟨"net/url: invalid control character in URL", by decide⟩⟩
  rintro ⟨t, req, h⟩
  simp [sampleEnv, downTransport] at h

/-! ## C2 -/

/-- C2: with `maxRetries >= 1`, a file whose payload is bytes or a URL string
and a first round trip that succeeds with a body decoding to status true and
payload `u :: rest`, `UploadFile` returns no error and the result
`(true, filename, u, "")` after exactly one request and no sleep. -/
theorem UploadFile_first_attempt_success (env : Env) (c : APIClient) (file : File)
    (batchID : String) (maxRetries d : Int) (tr : Trace) (resp : HTTPResponse)
    (u : String) (rest : List String)
    (hfile : supported file = true) (hN : 1 ≤ maxRetries)
    (hreq : env.newRequest "POST" (uploadURL c batchID) = none)
    (hrt : env.roundTrip tr
      (uploadRequest c (uploadURL c batchID) ⟨env.randomBoundary tr, formParts file⟩) =
        .response resp)
    (hdec : env.decodeUpload resp.Body = .ok ⟨true, u :: rest⟩) :
    ∃ evs,
      UploadFile env c file batchID maxRetries d tr =
        (.ret (some ⟨true, file.Filename, u, ""⟩) none, tr ++ evs) ∧
      evs.map Event.kind = [EventKind.request, EventKind.decode] ∧
      requests evs = 1 ∧ sleeps evs = 0 := by
  obtain ⟨f, hf⟩ : ∃ f, maxRetries.toNat = f + 1 := ⟨maxRetries.toNat - 1, by omega⟩
  have h1 : (0 : Int) < maxRetries := by omega
  refine ⟨[Event.roundTrip
    (uploadRequest c (uploadURL c batchID) ⟨env.randomBoundary tr, formParts file⟩)
    (.response resp), Event.decode resp.Body], ?_, ?_, ?_, ?_⟩
  · have hreq2 : env.newRequest "POST" (c.BaseURL ++ "/integrator/append/to/batch/" ++ batchID)
        = none := hreq
    have hrt2 : env.roundTrip tr (uploadRequest c
        (c.BaseURL ++ "/integrator/append/to/batch/" ++ batchID)
        ⟨env.randomBoundary tr, formParts file⟩) = .response resp := hrt
    simp only [UploadFile, hf, uploadLoop, if_pos h1, uploadAttempt,
      uploadForm_supported file _ hfile, hreq2, hrt2, hdec, if_true, uploadURL]
  · simp [Event.kind]
  · simp [requests, Event.kind]
  · simp [sleeps]

/-- Witness for C2: the server answers `status true, payload [abc-123]`. -/
theorem UploadFile_first_attempt_success_witness :
    ∃ evs,
      UploadFile (sampleEnv (fixedTransport 200 "accepted")) sampleClient sampleURLFile "b1" 3 5 [] =
        (.ret (some ⟨true, "a.pdf", "abc-123", ""⟩) none, [] ++ evs) ∧
      evs.map Event.kind = [EventKind.request, EventKind.decode] ∧
      requests evs = 1 ∧ sleeps evs = 0 :=
  UploadFile_first_attempt_success (sampleEnv (fixedTransport 200 "accepted")) sampleClient
    sampleURLFile "b1" 3 5 [] ⟨200, "accepted"⟩ "abc-123" [] (by decide) (by decide) rfl rfl rfl

/-! ## C7 -/

/-- C7 (amended): for a file whose payload is neither a byte slice nor a
string and for `maxRetries >= 1`, `UploadFile` returns the error
`unsupported file type` and a nil result, and the trace is unchanged: no
request is sent and there is no sleep. -/
theorem UploadFile_unsupported_payload (env : Env) (c : APIClient) (file : File)
    (batchID : String) (maxRetries d : Int) (tr : Trace)
    (hfile : supported file = false) (hN : 1 ≤ maxRetries) :
    UploadFile env c file batchID maxRetries d tr =
      (.ret none (some "unsupported file type"), tr) := by
  obtain ⟨f, hf⟩ : ∃ f, maxRetries.toNat = f + 1 := ⟨maxRetries.toNat - 1, by omega⟩
  have h1 : (0 : Int) < maxRetries := by omega
  simp only [UploadFile, hf, uploadLoop, if_pos h1, uploadAttempt,
    uploadForm_unsupported file _ hfile]

/-- Witness for C7 (amended): an `int` payload with two permitted attempts. -/
theorem UploadFile_unsupported_payload_witness :
    supported sampleOtherFile = false ∧
    UploadFile (sampleEnv downTransport) sampleClient sampleOtherFile "b1" 2 5 [] =
      (.ret none (some "unsupported file type"), []) :=
  ⟨by decide,
    UploadFile_unsupported_payload (sampleEnv downTransport) sampleClient sampleOtherFile "b1" 2 5 []
      (by decide) (by decide)⟩

/-- Counterexample to C7 as stated: with `maxRetries = 0` the loop body is
never entered, and an `int` payload gives a failure-flagged result and no
error. -/
theorem zero_retries_unsupported_counterexample :
    supported sampleOtherFile = false ∧
    UploadFile (sampleEnv downTransport) sampleClient sampleOtherFile "b1" 0 5 [] =
      (.ret (some ⟨false, "a.pdf", "", "max retries reached"⟩) none, []) := by
  decide

/-! ## C9 -/

theorem intercalate_replicate_succ_succ {α : Type} (sep x : List α) (n : Nat) :
    List.intercalate sep (List.replicate (n + 2) x) =
      x ++ sep ++ List.intercalate sep (List.replicate (n + 1) x) := by
  simp [List.intercalate, List.replicate_succ]

theorem uploadLoop_server_failure (env : Env) (c : APIClient) (file : File) (url : String)
    (maxRetries d : Int) (hfile : supported file = true)
    (hreq : env.newRequest "POST" url = none)
    (hok : ∀ t req, ∃ resp payload,
      env.roundTrip t req = .response resp ∧ env.decodeUpload resp.Body = .ok ⟨false, payload⟩)
    (j : Nat) :
    ∀ (fuel : Nat) (attempt : Int) (tr : Trace), j < fuel → attempt + (j + 1) = maxRetries →
      ∃ evs,
        uploadLoop env c file url maxRetries d fuel attempt tr =
          (.ret (some ⟨false, file.Filename, "", "max retries reached"⟩) none, tr ++ evs) ∧
        evs.map Event.kind =
          List.intercalate [EventKind.sleep d]
            (List.replicate (j + 1) [EventKind.request, EventKind.decode]) ∧
        requests evs = j + 1 ∧ sleeps evs = j := by
  induction j with
  | zero =>
    intro fuel attempt tr hf ha
    obtain ⟨f, rfl⟩ : ∃ f, fuel = f + 1 := ⟨fuel - 1, by omega⟩
    obtain ⟨resp, payload, hrt, hdec⟩ :=
      hok tr (uploadRequest c url ⟨env.randomBoundary tr, formParts file⟩)
    refine ⟨[Event.roundTrip (uploadRequest c url ⟨env.randomBoundary tr, formParts file⟩)
      (.response resp), Event.decode resp.Body], ?_, ?_, ?_, ?_⟩
    · have h1 : attempt < maxRetries := by omega
      have h2 : attempt = maxRetries - 1 := by omega
      simp only [uploadLoop, if_pos h1, uploadAttempt, uploadForm_supported file _ hfile, hreq,
        hrt, hdec, if_pos h2]
      simp
    · simp [Event.kind, List.intercalate]
    · simp [requests, Event.kind]
    · simp [sleeps]
  | succ j ih =>
    intro fuel attempt tr hf ha
    obtain ⟨f, rfl⟩ : ∃ f, fuel = f + 1 := ⟨fuel - 1, by omega⟩
    obtain ⟨resp, payload, hrt, hdec⟩ :=
      hok tr (uploadRequest c url ⟨env.randomBoundary tr, formParts file⟩)
    have h1 : attempt < maxRetries := by omega
    have h2 : ¬ attempt = maxRetries - 1 := by omega
    obtain ⟨evs, hrun, hkind, hreqs, hsl⟩ := ih f (attempt + 1)
      (tr ++ [Event.roundTrip (uploadRequest c url ⟨env.randomBoundary tr, formParts file⟩)
        (.response resp), Event.decode resp.Body] ++ [Event.sleep d]) (by omega) (by omega)
    refine ⟨[Event.roundTrip (uploadRequest c url ⟨env.randomBoundary tr, formParts file⟩)
        (.response resp), Event.decode resp.Body, Event.sleep d] ++ evs, ?_, ?_, ?_, ?_⟩
    · simp only [uploadLoop, if_pos h1, uploadAttempt, uploadForm_supported file _ hfile, hreq,
        hrt, hdec, if_neg h2]
      simpa using hrun
    · rw [List.map_append, hkind, intercalate_replicate_succ_succ]
      simp [Event.kind]
    · rw [requests_append, hreqs]
      simp [requests, Event.kind]
      omega
    · rw [sleeps_append, hsl]
      simp [sleeps]
      omega

/-- C9 (amended): with `maxRetries = N >= 1`, a file whose payload is bytes or
a URL string, a request that can be built and every round trip succeeding with a body that decodes to status
false, `UploadFile` issues exactly `N` requests, each followed by the decoding
of its body, sleeps `d` after each attempt but the last (`N - 1` times), and
returns no error and the result `(false, filename, "", "max retries reached")`. -/
theorem UploadFile_server_failure (env : Env) (c : APIClient) (file : File)
    (batchID : String) (N : Nat) (d : Int) (tr : Trace)
    (hfile : supported file = true) (hN : 1 ≤ N)
    (hreq : env.newRequest "POST" (uploadURL c batchID) = none)
    (hok : ∀ t req, ∃ resp payload,
      env.roundTrip t req = .response resp ∧ env.decodeUpload resp.Body = .ok ⟨false, payload⟩) :
    ∃ evs,
      UploadFile env c file batchID N d tr =
        (.ret (some ⟨false, file.Filename, "", "max retries reached"⟩) none, tr ++ evs) ∧
      evs.map Event.kind =
        List.intercalate [EventKind.sleep d]
          (List.replicate N [EventKind.request, EventKind.decode]) ∧
      requests evs = N ∧ sleeps evs = N - 1 := by
  obtain ⟨j, rfl⟩ : ∃ j, N = j + 1 := ⟨N - 1, by omega⟩
  have h := uploadLoop_server_failure env c file (uploadURL c batchID) ((j + 1 : Nat) : Int) d
    hfile hreq hok j (j + 1) 0 tr (by omega) (by push_cast; omega)
  simpa [UploadFile, uploadURL] using h

/-- Witness for C9 (amended): three attempts, each answered with status false. -/
theorem UploadFile_server_failure_witness :
    ∃ evs,
      UploadFile (sampleEnv (fixedTransport 200 "rejected")) sampleClient sampleBytesFile "b1"
          (3 : Nat) 5 [] =
        (.ret (some ⟨false, "a.pdf", "", "max retries reached"⟩) none, [] ++ evs) ∧
      evs.map Event.kind =
        List.intercalate [EventKind.sleep 5]
          (List.replicate 3 [EventKind.request, EventKind.decode]) ∧
      requests evs = 3 ∧ sleeps evs = 3 - 1 :=
  UploadFile_server_failure (sampleEnv (fixedTransport 200 "rejected")) sampleClient
    sampleBytesFile "b1" 3 5 [] (by decide) (by decide) rfl
    (fun _ _ => ⟨⟨200, "rejected"⟩, [], rfl, rfl⟩)

/-- Counterexample to C9 as stated: every round trip succeeds with a body
that decodes to status false and `maxRetries = 3`, but the batch id ends in a
line feed and the request cannot be built: `UploadFile` returns an error and
no result, and no request reaches the transport. -/
theorem server_failure_counterexample :
    (∀ t req, ∃ resp payload,
      (strictEnv (fixedTransport 200 "rejected")).roundTrip t req = .response resp ∧
      (strictEnv (fixedTransport 200 "rejected")).decodeUpload resp.Body =
        .ok ⟨false, payload⟩) ∧
    supported sampleBytesFile = true ∧
    ∃ err,
      UploadFile (strictEnv (fixedTransport 200 "rejected")) sampleClient sampleBytesFile
          "b1\x0a" 3 5 [] =
        (.ret none (some err), []) :=
  ⟨fun _ _ => ⟨⟨200, "rejected"⟩, [], rfl, rfl⟩, by decide,
    ⟨"net/url: invalid control character in URL", by decide⟩⟩

/-! ## C8 -/

theorem uploadLoop_decode_failure (env : Env) (c : APIClient) (file : File) (url : String)
    (maxRetries d : Int) (resp : HTTPResponse) (err : GoError)
    (hfile : supported file = true)
    (hreq : env.newRequest "POST" url = none)
    (hdec : env.decodeUpload resp.Body = .error err) (j : Nat) :
    ∀ (fuel : Nat) (attempt : Int) (tr : Trace), j < fuel → attempt + j < maxRetries →
      (∀ t req, requests tr ≤ requests t → requests t < requests tr + j →
        ∃ e, env.roundTrip t req = .error e) →
      (∀ t req, requests t = requests tr + j → env.roundTrip t req = .response resp) →
      ∃ evs,
        uploadLoop env c file url maxRetries d fuel attempt tr =
          (.ret none (some err), tr ++ evs) ∧
        evs.map Event.kind =
          (List.replicate j [EventKind.request, EventKind.sleep d]).flatten ++
            [EventKind.request, EventKind.decode] ∧
        requests evs = j + 1 := by
  induction j with
  | zero =>
    intro fuel attempt tr hf ha _ hresp
    obtain ⟨f, rfl⟩ : ∃ f, fuel = f + 1 := ⟨fuel - 1, by omega⟩
    have hrt := hresp tr (uploadRequest c url ⟨env.randomBoundary tr, formParts file⟩) (by simp)
    refine ⟨[Event.roundTrip (uploadRequest c url ⟨env.randomBoundary tr, formParts file⟩)
      (.response resp), Event.decode resp.Body], ?_, ?_, ?_⟩
    · have h1 : attempt < maxRetries := by omega
      simp only [uploadLoop, if_pos h1, uploadAttempt, uploadForm_supported file _ hfile, hreq,
        hrt, hdec]
    · simp [Event.kind]
    · simp [requests, Event.kind]
  | succ j ih =>
    intro fuel attempt tr hf ha hfail hresp
    obtain ⟨f, rfl⟩ : ∃ f, fuel = f + 1 := ⟨fuel - 1, by omega⟩
    obtain ⟨e, he⟩ := hfail tr (uploadRequest c url ⟨env.randomBoundary tr, formParts file⟩)
      (le_refl _) (by omega)
    have h1 : attempt < maxRetries := by omega
    have h2 : ¬ attempt = maxRetries - 1 := by omega
    have hcount : requests (tr ++ [Event.roundTrip
        (uploadRequest c url ⟨env.randomBoundary tr, formParts file⟩) (.error e),
        Event.sleep d]) = requests tr + 1 := by
      rw [requests_append]
      simp [requests, Event.kind]
    obtain ⟨evs, hrun, hkind, hreqs⟩ := ih f (attempt + 1)
      (tr ++ [Event.roundTrip (uploadRequest c url ⟨env.randomBoundary tr, formParts file⟩)
        (.error e), Event.sleep d]) (by omega) (by push_cast at ha ⊢; omega)
      (fun t req hlo hhi => hfail t req (by omega) (by omega))
      (fun t req heq => hresp t req (by omega))
    refine ⟨[Event.roundTrip (uploadRequest c url ⟨env.randomBoundary tr, formParts file⟩)
        (.error e), Event.sleep d] ++ evs, ?_, ?_, ?_⟩
    · simp only [uploadLoop, if_pos h1, uploadAttempt, uploadForm_supported file _ hfile, hreq,
        he, if_neg h2, hrun, List.append_assoc]
    · rw [List.map_append, hkind]
      simp [Event.kind, List.replicate_succ]
    · rw [requests_append, hreqs]
      simp [requests, Event.kind]
      omega

/-- C8: if the first `k - 1` calls of the transport fail and call `k`, with
`1 <= k <= maxRetries`, succeeds with a body that fails to decode with error
`err`, then `UploadFile` returns `err` and a nil result after exactly `k`
requests: `k - 1` failed attempts, each followed by a sleep, then the request
and the decoding of attempt `k`, and nothing after it. -/
theorem UploadFile_decode_failure (env : Env) (c : APIClient) (file : File)
    (batchID : String) (maxRetries d : Int) (tr : Trace) (k : Nat)
    (resp : HTTPResponse) (err : GoError)
    (hfile : supported file = true) (hk : 1 ≤ k) (hkN : (k : Int) ≤ maxRetries)
    (hreq : env.newRequest "POST" (uploadURL c batchID) = none)
    (hfail : ∀ t req, requests tr ≤ requests t → requests t < requests tr + (k - 1) →
      ∃ e, env.roundTrip t req = .error e)
    (hresp : ∀ t req, requests t = requests tr + (k - 1) → env.roundTrip t req = .response resp)
    (hdec : env.decodeUpload resp.Body = .error err) :
    ∃ evs,
      UploadFile env c file batchID maxRetries d tr = (.ret none (some err), tr ++ evs) ∧
      evs.map Event.kind =
        (List.replicate (k - 1) [EventKind.request, EventKind.sleep d]).flatten ++
          [EventKind.request, EventKind.decode] ∧
      requests evs = k := by
  obtain ⟨j, rfl⟩ : ∃ j, k = j + 1 := ⟨k - 1, by omega⟩
  have h := uploadLoop_decode_failure env c file (uploadURL c batchID) maxRetries d resp err
    hfile hreq hdec j maxRetries.toNat 0 tr (by omega) (by push_cast at hkN; omega)
    (by simpa using hfail) (by simpa using hresp)
  simpa [UploadFile, uploadURL] using h

/-- Witness for C8: two transport failures, then a body that does not
decode, with five attempts permitted. -/
theorem UploadFile_decode_failure_witness :
    ∃ evs,
      UploadFile (sampleEnv (flakyTransport 2 "garbage")) sampleClient sampleURLFile "b1" 5 7 [] =
        (.ret none (some "invalid character"), [] ++ evs) ∧
      evs.map Event.kind =
        (List.replicate (3 - 1) [EventKind.request, EventKind.sleep 7]).flatten ++
          [EventKind.request, EventKind.decode] ∧
      requests evs = 3 :=
  UploadFile_decode_failure (sampleEnv (flakyTransport 2 "garbage")) sampleClient sampleURLFile
    "b1" 5 7 [] 3 ⟨200, "garbage"⟩ "invalid character" (by decide) (by decide) (by decide) rfl
    (fun t _ _ h => ⟨"connection reset", by
      have h2 : requests t < 2 := by simpa [requests] using h
      simp [sampleEnv, flakyTransport, h2]⟩)
    (fun t _ h => by
      have h2 : ¬ requests t < 2 := by
        have : requests t = 2 := by simpa [requests] using h
        omega
      simp [sampleEnv, flakyTransport, h2])
    rfl

/-! ## C10 -/

theorem uploadAttempt_events (env : Env) (c : APIClient) (file : File) (url : String)
    (maxRetries d attempt : Int) (tr : Trace) :
    ∃ evs,
      (∀ req res, Event.roundTrip req res ∈ evs →
        ∃ boundary, req = uploadRequest c url ⟨boundary, formParts file⟩) ∧
      ((∃ out, uploadAttempt env c file url maxRetries d attempt tr = .done out (tr ++ evs)) ∨
        uploadAttempt env c file url maxRetries d attempt tr = .next (tr ++ evs)) := by
  unfold uploadAttempt
  cases hs : supported file with
  | false =>
    rw [uploadForm_unsupported file _ hs]
    exact ⟨[], by simp, Or.inl ⟨_, by rw [List.append_nil]⟩⟩
  | true =>
    rw [uploadForm_supported file _ hs]
    simp only
    cases hn : env.newRequest "POST" url with
    | some err => exact ⟨[], by simp, Or.inl ⟨_, by rw [List.append_nil]⟩⟩
    | none =>
      simp only
      cases hr : env.roundTrip tr
          (uploadRequest c url ⟨env.randomBoundary tr, formParts file⟩) with
      | error err =>
        simp only
        by_cases h2 : attempt = maxRetries - 1
        · rw [if_pos h2]
          exact ⟨_, fun req res hmem => ⟨env.randomBoundary tr, by simp at hmem; exact hmem.1⟩,
            Or.inl ⟨_, rfl⟩⟩
        · rw [if_neg h2]
          exact ⟨_, fun req res hmem => ⟨env.randomBoundary tr, by simp at hmem; exact hmem.1⟩, Or.inr rfl⟩
      | response resp =>
        simp only
        cases hd : env.decodeUpload resp.Body with
        | error err =>
          exact ⟨_, fun req res hmem => ⟨env.randomBoundary tr, by simp at hmem; exact hmem.1⟩,
            Or.inl ⟨_, rfl⟩⟩
        | ok result =>
          simp only
          by_cases hst : result.Status = true
          · rw [if_pos hst]
            cases result.Payload with
            | nil =>
              exact ⟨_, fun req res hmem => ⟨env.randomBoundary tr, by simp at hmem; exact hmem.1⟩,
                Or.inl ⟨_, rfl⟩⟩
            | cons u rest =>
              exact ⟨_, fun req res hmem => ⟨env.randomBoundary tr, by simp at hmem; exact hmem.1⟩,
                Or.inl ⟨_, rfl⟩⟩
          · rw [if_neg hst]
            by_cases h2 : attempt = maxRetries - 1
            · rw [if_pos h2]
              exact ⟨_, fun req res hmem => ⟨env.randomBoundary tr, by simp at hmem; exact hmem.1⟩,
                Or.inl ⟨_, rfl⟩⟩
            · rw [if_neg h2]
              refine ⟨[Event.roundTrip
                  (uploadRequest c url ⟨env.randomBoundary tr, formParts file⟩) (.response resp),
                Event.decode resp.Body, Event.sleep d],
                fun req res hmem => ⟨env.randomBoundary tr, ?_⟩, Or.inr ?_⟩
              · simp at hmem; exact hmem.1
              · simp

theorem uploadLoop_events (env : Env) (c : APIClient) (file : File) (url : String)
    (maxRetries d : Int) :
    ∀ (fuel : Nat) (attempt : Int) (tr : Trace),
      ∃ evs,
        (uploadLoop env c file url maxRetries d fuel attempt tr).2 = tr ++ evs ∧
        ∀ req res, Event.roundTrip req res ∈ evs →
          ∃ boundary, req = uploadRequest c url ⟨boundary, formParts file⟩ := by
  intro fuel
  induction fuel with
  | zero => intro attempt tr; exact ⟨[], by simp [uploadLoop], by simp⟩
  | succ f ih =>
    intro attempt tr
    by_cases h1 : attempt < maxRetries
    · obtain ⟨evs, hev, hcase⟩ := uploadAttempt_events env c file url maxRetries d attempt tr
      rcases hcase with ⟨out, hdone⟩ | hnext
      · exact ⟨evs, by simp [uploadLoop, h1, hdone], hev⟩
      · obtain ⟨evs2, hrun2, hev2⟩ := ih (attempt + 1) (tr ++ evs)
        refine ⟨evs ++ evs2, ?_, ?_⟩
        · simp only [uploadLoop, if_pos h1, hnext, hrun2, List.append_assoc]
        · intro req res hmem
          rcases List.mem_append.1 hmem with h | h
          · exact hev req res h
          · exact hev2 req res h
    · exact ⟨[], by simp [uploadLoop, h1], by simp⟩

/-- C10: the form `UploadFile` writes in an attempt has, for a bytes payload
`b`, the file part `file` with the filename of the file and content `b`
followed by the field `type_document`, and for a string payload `u` the
fields `file_url = u`, `file_name` and `type_document`, in this order and
with no file part; and every request that a run of `UploadFile` hands to the
transport, on the first attempt and on every retry alike, carries exactly
these parts as its multipart body. -/
theorem UploadFile_multipart_parts (env : Env) (c : APIClient) (file : File)
    (batchID : String) (maxRetries d : Int) (tr : Trace) :
    (∀ b boundary, file.File = GoValue.bytes b →
      uploadForm file boundary = some ⟨boundary,
        [Part.file "file" file.Filename b, Part.field "type_document" file.TypeDocument]⟩) ∧
    (∀ u boundary, file.File = GoValue.str u →
      uploadForm file boundary = some ⟨boundary,
        [Part.field "file_url" u, Part.field "file_name" file.Filename,
          Part.field "type_document" file.TypeDocument]⟩) ∧
    (∀ evs req res, (UploadFile env c file batchID maxRetries d tr).2 = tr ++ evs →
      Event.roundTrip req res ∈ evs →
      (∀ b, file.File = GoValue.bytes b →
        ∃ boundary, req.body = RequestBody.multipart boundary
          [Part.file "file" file.Filename b, Part.field "type_document" file.TypeDocument]) ∧
      (∀ u, file.File = GoValue.str u →
        ∃ boundary, req.body = RequestBody.multipart boundary
          [Part.field "file_url" u, Part.field "file_name" file.Filename,
            Part.field "type_document" file.TypeDocument])) := by
  refine ⟨?_, ?_, ?_⟩
  · intro b boundary hb
    rw [uploadForm_supported file boundary (by simp [supported, hb])]
    simp [formParts, hb]
  · intro u boundary hu
    rw [uploadForm_supported file boundary (by simp [supported, hu])]
    simp [formParts, hu]
  · intro evs req res hrun hmem
    obtain ⟨evs2, hrun2, hev⟩ := uploadLoop_events env c file
      (c.BaseURL ++ "/integrator/append/to/batch/" ++ batchID) maxRetries d maxRetries.toNat 0 tr
    have heq : evs = evs2 := by
      have h : tr ++ evs = tr ++ evs2 := by rw [← hrun, ← hrun2]; rfl
      exact List.append_cancel_left h
    subst heq
    obtain ⟨boundary, rfl⟩ := hev req res hmem
    constructor
    · intro b hb
      exact ⟨boundary, by simp [uploadRequest, formParts, hb]⟩
    · intro u hu
      exact ⟨boundary, by simp [uploadRequest, formParts, hu]⟩

/-- Witness for C10: a run of two attempts, the second a retry after a
transport error; the request of the retry carries the file part and the
field `type_document`, like the first. -/
theorem UploadFile_multipart_parts_witness :
    (UploadFile (sampleEnv (flakyTransport 1 "accepted")) sampleClient sampleBytesFile "b1" 3 5 []).2 =
      [] ++ sampleRetryEvents ∧
    ∃ boundary,
      (uploadRequest sampleClient (uploadURL sampleClient "b1")
          ⟨"b1", formParts sampleBytesFile⟩).body =
        RequestBody.multipart boundary
          [Part.file "file" "a.pdf" [1, 2, 3], Part.field "type_document" "invoice"] :=
  ⟨by decide,
    ((UploadFile_multipart_parts (sampleEnv (flakyTransport 1 "accepted")) sampleClient
      sampleBytesFile "b1" 3 5 []).2.2 sampleRetryEvents
      (uploadRequest sampleClient (uploadURL sampleClient "b1") ⟨"b1", formParts sampleBytesFile⟩)
      (.response ⟨200, "accepted"⟩) (by decide) (by decide)).1 [1, 2, 3] rfl⟩

/-! ## `AppendJob`: C3 and C4 -/

theorem uploadAttempt_filename (env : Env) (c : APIClient) (file : File) (url : String)
    (maxRetries d attempt : Int) (tr : Trace) (r : UploadResult) (e : Option GoError)
    (tr1 : Trace)
    (h : uploadAttempt env c file url maxRetries d attempt tr = .done (.ret (some r) e) tr1) :
    r.Filename = file.Filename := by
  unfold uploadAttempt at h
  cases hs : supported file with
  | false =>
    rw [uploadForm_unsupported file _ hs] at h
    simp at h
  | true =>
    rw [uploadForm_supported file _ hs] at h
    simp only at h
    cases hn : env.newRequest "POST" url with
    | some err => rw [hn] at h; simp at h
    | none =>
      rw [hn] at h
      simp only at h
      cases hr : env.roundTrip tr
          (uploadRequest c url ⟨env.randomBoundary tr, formParts file⟩) with
      | error err =>
        rw [hr] at h
        simp only at h
        by_cases h2 : attempt = maxRetries - 1
        · rw [if_pos h2] at h
          simp only [Attempt.done.injEq, Outcome.ret.injEq, Option.some.injEq] at h
          rw [← h.1.1]
        · rw [if_neg h2] at h
          simp at h
      | response resp =>
        rw [hr] at h
        simp only at h
        cases hd : env.decodeUpload resp.Body with
        | error err => rw [hd] at h; simp at h
        | ok result =>
          rw [hd] at h
          simp only at h
          by_cases hst : result.Status = true
          · rw [if_pos hst] at h
            cases hp : result.Payload with
            | nil => rw [hp] at h; simp at h
            | cons u rest =>
              rw [hp] at h
              simp only [Attempt.done.injEq, Outcome.ret.injEq, Option.some.injEq] at h
              rw [← h.1.1]
          · rw [if_neg hst] at h
            by_cases h2 : attempt = maxRetries - 1
            · rw [if_pos h2] at h
              simp only [Attempt.done.injEq, Outcome.ret.injEq, Option.some.injEq] at h
              rw [← h.1.1]
            · rw [if_neg h2] at h
              simp at h

theorem uploadLoop_filename (env : Env) (c : APIClient) (file : File) (url : String)
    (maxRetries d : Int) :
    ∀ (fuel : Nat) (attempt : Int) (tr : Trace) (r : UploadResult) (e : Option GoError)
      (tr1 : Trace),
      uploadLoop env c file url maxRetries d fuel attempt tr = (.ret (some r) e, tr1) →
        r.Filename = file.Filename := by
  intro fuel
  induction fuel with
  | zero =>
    intro attempt tr r e tr1 h
    simp only [uploadLoop, Prod.mk.injEq, Outcome.ret.injEq, Option.some.injEq] at h
    rw [← h.1.1]
  | succ f ih =>
    intro attempt tr r e tr1 h
    by_cases h1 : attempt < maxRetries
    · simp only [uploadLoop, if_pos h1] at h
      cases ha : uploadAttempt env c file url maxRetries d attempt tr with
      | next tr2 =>
        rw [ha] at h
        exact ih _ _ _ _ _ h
      | done out tr2 =>
        rw [ha] at h
        simp only [Prod.mk.injEq] at h
        obtain ⟨hout, -⟩ := h
        subst hout
        exact uploadAttempt_filename env c file url maxRetries d attempt tr r e tr2 ha
    · simp only [uploadLoop, if_neg h1, Prod.mk.injEq, Outcome.ret.injEq, Option.some.injEq] at h
      rw [← h.1.1]

theorem filter_success_length (rs : List UploadResult) :
    (rs.filter (fun r => r.Success)).length + (rs.filter (fun r => !r.Success)).length =
      rs.length := by
  induction rs with
  | nil => simp
  | cons r rest ih =>
    cases hs : r.Success <;> simp [List.filter_cons, hs] <;> omega

theorem uploadAll_cons (env : Env) (c : APIClient) (batchID : String) (maxRetries d : Int)
    (file : File) (rest : List File) (tr : Trace) (rs : List UploadResult) (tr2 : Trace) :
    uploadAll env c batchID maxRetries d (file :: rest) tr = some (rs, tr2) ↔
      ∃ r tr1 rs1, UploadFile env c file batchID maxRetries d tr = (.ret (some r) none, tr1) ∧
        uploadAll env c batchID maxRetries d rest tr1 = some (rs1, tr2) ∧ rs = r :: rs1 := by
  constructor
  · intro h
    unfold uploadAll at h
    split at h
    · rename_i r tr1 hu
      split at h
      · rename_i rs1 tr3 hrest
        simp only [Option.some.injEq, Prod.mk.injEq] at h
        exact ⟨r, tr1, rs1, hu, by rw [hrest, ← h.2], h.1.symm⟩
      · simp at h
    · simp at h
  · rintro ⟨r, tr1, rs1, hu, hrest, rfl⟩
    unfold uploadAll
    simp only [hu, hrest]

theorem appendLoop_partition (env : Env) (c : APIClient) (batchID : String)
    (maxRetries d : Int) :
    ∀ (files : List File) (s f : List UploadResult) (tr : Trace) (rs : List UploadResult)
      (tr2 : Trace),
      uploadAll env c batchID maxRetries d files tr = some (rs, tr2) →
        appendLoop env c batchID maxRetries d files [("successful", s), ("failed", f)] tr =
          (.ret (some [("successful", s ++ rs.filter (fun r => r.Success)),
              ("failed", f ++ rs.filter (fun r => !r.Success))]) none, tr2) ∧
        rs.map (fun r => r.Filename) = files.map (fun x => x.Filename) := by
  intro files
  induction files with
  | nil =>
    intro s f tr rs tr2 h
    simp only [uploadAll, Option.some.injEq, Prod.mk.injEq] at h
    obtain ⟨rfl, rfl⟩ := h
    simp [appendLoop]
  | cons file rest ih =>
    intro s f tr rs tr2 h
    obtain ⟨r, tr1, rs1, hu, hrest, rfl⟩ := (uploadAll_cons _ _ _ _ _ _ _ _ _ _).1 h
    have hname : r.Filename = file.Filename :=
      uploadLoop_filename env c file _ maxRetries d _ _ _ _ _ _ hu
    cases hs : r.Success with
    | true =>
      obtain ⟨h1, h2⟩ := ih (s ++ [r]) f tr1 rs1 tr2 hrest
      constructor
      · simp only [appendLoop, hu, hs, if_true]
        simpa [mapAssign, mapIndex, List.lookup, hs, List.filter_cons] using h1
      · simp [h2, hname]
    | false =>
      obtain ⟨h1, h2⟩ := ih s (f ++ [r]) tr1 rs1 tr2 hrest
      constructor
      · simp only [appendLoop, hu, hs]
        simpa [mapAssign, mapIndex, List.lookup, hs, List.filter_cons] using h1
      · simp [h2, hname]

/-- The partition of the results: when every `UploadFile` call of a job
returns a result and no error (`rs` being the results in job order),
`AppendJob` returns no error and the map with exactly the keys `successful`
and `failed`, where `successful` holds
the results with `Success = true` and `failed` those with `Success = false`,
both in job order; `rs` has one entry per file, carrying that file's name, so
the two lists together have one entry per file. -/
theorem AppendJob_partition (env : Env) (c : APIClient) (job : Job) (batchID : String)
    (maxRetries d : Int) (tr : Trace) (rs : List UploadResult) (tr2 : Trace)
    (hall : uploadAll env c batchID maxRetries d job.Files tr = some (rs, tr2)) :
    AppendJob env c job batchID maxRetries d tr =
      (.ret (some [("successful", rs.filter (fun r => r.Success)),
          ("failed", rs.filter (fun r => !r.Success))]) none, tr2) ∧
    rs.map (fun r => r.Filename) = job.Files.map (fun x => x.Filename) ∧
    (rs.filter (fun r => r.Success)).length + (rs.filter (fun r => !r.Success)).length =
      job.Files.length := by
  obtain ⟨h1, h2⟩ := appendLoop_partition env c batchID maxRetries d job.Files [] [] tr rs tr2 hall
  refine ⟨by simpa [AppendJob] using h1, h2, ?_⟩
  have hlen : rs.length = job.Files.length := by
    have := congrArg List.length h2
    simpa using this
  rw [← hlen]
  exact filter_success_length rs

/-- The partition on the job of three files, the second of which fails all its
retries while the first and the third succeed. -/
theorem AppendJob_partition_witness :
    ∃ tr2,
      uploadAll (sampleEnv pickyTransport) sampleClient "b1" 2 5 sampleJob.Files [] =
        some ([⟨true, "one.pdf", "abc-123", ""⟩, ⟨false, "two.pdf", "", "timeout"⟩,
          ⟨true, "three.pdf", "abc-123", ""⟩], tr2) ∧
      AppendJob (sampleEnv pickyTransport) sampleClient sampleJob "b1" 2 5 [] =
        (.ret (some [("successful",
              [⟨true, "one.pdf", "abc-123", ""⟩, ⟨true, "three.pdf", "abc-123", ""⟩]),
            ("failed", [⟨false, "two.pdf", "", "timeout"⟩])]) none, tr2) :=
  ⟨(AppendJob (sampleEnv pickyTransport) sampleClient sampleJob "b1" 2 5 []).2, by decide,
    (AppendJob_partition (sampleEnv pickyTransport) sampleClient sampleJob "b1" 2 5 []
      [⟨true, "one.pdf", "abc-123", ""⟩, ⟨false, "two.pdf", "", "timeout"⟩,
        ⟨true, "three.pdf", "abc-123", ""⟩]
      (AppendJob (sampleEnv pickyTransport) sampleClient sampleJob "b1" 2 5 []).2 (by decide)).1⟩

/-! ## C3: a call that panics -/

theorem appendLoop_prefix (env : Env) (c : APIClient) (batchID : String)
    (maxRetries d : Int) :
    ∀ (pre : List File) (m : ResultMap) (tr : Trace) (rs : List UploadResult) (tr1 : Trace),
      uploadAll env c batchID maxRetries d pre tr = some (rs, tr1) →
        ∃ m1, ∀ rest, appendLoop env c batchID maxRetries d (pre ++ rest) m tr =
          appendLoop env c batchID maxRetries d rest m1 tr1 := by
  intro pre
  induction pre with
  | nil =>
    intro m tr rs tr1 h
    simp only [uploadAll, Option.some.injEq, Prod.mk.injEq] at h
    exact ⟨m, fun rest => by rw [← h.2]; rfl⟩
  | cons file pre1 ih =>
    intro m tr rs tr1 h
    obtain ⟨r, t, rs1, hu, hrest, -⟩ := (uploadAll_cons _ _ _ _ _ _ _ _ _ _).1 h
    cases hs : r.Success with
    | true =>
      obtain ⟨m1, hm1⟩ := ih (mapAssign m "successful" (mapIndex m "successful" ++ [r])) t rs1
        tr1 hrest
      exact ⟨m1, fun rest => by
        rw [← hm1 rest]
        simp only [List.cons_append, appendLoop, hu, hs, if_true]
        rfl⟩
    | false =>
      obtain ⟨m1, hm1⟩ := ih (mapAssign m "failed" (mapIndex m "failed" ++ [r])) t rs1
        tr1 hrest
      exact ⟨m1, fun rest => by
        rw [← hm1 rest]
        simp [appendLoop, hu, hs]⟩

/-- C3 (the code departs from the claim): if the uploads of the first files
of a job return results and no error, and the upload of the next file panics,
then no `UploadFile` call has returned an error, and yet `AppendJob` returns
neither a map nor an error: it panics with that upload, in the state the
upload left, and the files after it are not uploaded. -/
theorem AppendJob_upload_panics (env : Env) (c : APIClient) (job : Job) (batchID : String)
    (maxRetries d : Int) (tr : Trace) (pre : List File) (file : File) (post : List File)
    (rs : List UploadResult) (tr1 : Trace) (msg : String) (tr2 : Trace)
    (hfiles : job.Files = pre ++ file :: post)
    (hpre : uploadAll env c batchID maxRetries d pre tr = some (rs, tr1))
    (hpanic : UploadFile env c file batchID maxRetries d tr1 = (.panic msg, tr2)) :
    AppendJob env c job batchID maxRetries d tr = (.panic msg, tr2) ∧
    ∀ (m : Option ResultMap) (err : Option GoError),
      (AppendJob env c job batchID maxRetries d tr).1 ≠ .ret m err := by
  obtain ⟨m1, hm1⟩ := appendLoop_prefix env c batchID maxRetries d pre
    [("successful", []), ("failed", [])] tr rs tr1 hpre
  have hrun : AppendJob env c job batchID maxRetries d tr = (.panic msg, tr2) := by
    simp only [AppendJob, hfiles, hm1, appendLoop, hpanic]
  refine ⟨hrun, ?_⟩
  intro m err h
  rw [hrun] at h
  simp at h

/-- Witness for C3: a job of three files; the first upload succeeds, the
second is answered with status true and no payload entry and panics.  No call
returns an error, `AppendJob` panics, and the third file is not uploaded. -/
theorem AppendJob_upload_panics_witness :
    uploadAll (sampleEnv emptyPayloadTransport) sampleClient "b1" 2 5
        [⟨.bytes [1], "invoice", "one.pdf"⟩] [] =
      some ([⟨true, "one.pdf", "abc-123", ""⟩],
        (UploadFile (sampleEnv emptyPayloadTransport) sampleClient
          ⟨.bytes [1], "invoice", "one.pdf"⟩ "b1" 2 5 []).2) ∧
    (UploadFile (sampleEnv emptyPayloadTransport) sampleClient
        ⟨.bytes [2], "invoice", "two.pdf"⟩ "b1" 2 5
        (UploadFile (sampleEnv emptyPayloadTransport) sampleClient
          ⟨.bytes [1], "invoice", "one.pdf"⟩ "b1" 2 5 []).2).1 =
      .panic "runtime error: index out of range [0] with length 0" ∧
    (AppendJob (sampleEnv emptyPayloadTransport) sampleClient sampleJob "b1" 2 5 []).1 =
      .panic "runtime error: index out of range [0] with length 0" ∧
    requests (AppendJob (sampleEnv emptyPayloadTransport) sampleClient sampleJob "b1" 2 5 []).2
      = 2 :=
  ⟨by decide, by decide,
    congrArg Prod.fst (AppendJob_upload_panics (sampleEnv emptyPayloadTransport) sampleClient
      sampleJob "b1" 2 5 [] [⟨.bytes [1], "invoice", "one.pdf"⟩]
      ⟨.bytes [2], "invoice", "two.pdf"⟩ [⟨.bytes [3], "receipt", "three.pdf"⟩]
      [⟨true, "one.pdf", "abc-123", ""⟩]
      (UploadFile (sampleEnv emptyPayloadTransport) sampleClient
        ⟨.bytes [1], "invoice", "one.pdf"⟩ "b1" 2 5 []).2
      "runtime error: index out of range [0] with length 0"
      (UploadFile (sampleEnv emptyPayloadTransport) sampleClient
        ⟨.bytes [2], "invoice", "two.pdf"⟩ "b1" 2 5
        (UploadFile (sampleEnv emptyPayloadTransport) sampleClient
          ⟨.bytes [1], "invoice", "one.pdf"⟩ "b1" 2 5 []).2).2
      rfl (by decide) (by decide)).1,
    by decide⟩

theorem appendLoop_error_iff (env : Env) (c : APIClient) (batchID : String)
    (maxRetries d : Int) :
    ∀ (files : List File) (m : ResultMap) (tr : Trace) (mo : Option ResultMap) (err : GoError)
      (tr2 : Trace),
      appendLoop env c batchID maxRetries d files m tr = (.ret mo (some err), tr2) ↔
        mo = none ∧ ∃ pre file post rs tr1 v,
          files = pre ++ file :: post ∧
          uploadAll env c batchID maxRetries d pre tr = some (rs, tr1) ∧
          UploadFile env c file batchID maxRetries d tr1 = (.ret v (some err), tr2) := by
  intro files
  induction files with
  | nil =>
    intro m tr mo err tr2
    constructor
    · intro h
      simp [appendLoop] at h
    · rintro ⟨-, pre, file, post, rs, tr1, v, hfiles, -, -⟩
      simp at hfiles
  | cons file rest ih =>
    intro m tr mo err tr2
    have key : ∀ pre f post, file :: rest = pre ++ f :: post →
        (pre = [] ∧ f = file ∧ post = rest) ∨
          ∃ pre1, pre = file :: pre1 ∧ rest = pre1 ++ f :: post := by
      intro pre f post h
      cases pre with
      | nil =>
        simp only [List.nil_append, List.cons.injEq] at h
        exact Or.inl ⟨rfl, h.1.symm, h.2.symm⟩
      | cons p pre1 =>
        simp only [List.cons_append, List.cons.injEq] at h
        exact Or.inr ⟨pre1, by rw [h.1], h.2⟩
    rcases hu : UploadFile env c file batchID maxRetries d tr with ⟨o, tr1⟩
    cases o with
    | panic msg =>
      constructor
      · intro h
        simp [appendLoop, hu] at h
      · rintro ⟨-, pre, f, post, rs, t1, v, hfiles, hall, huf⟩
        rcases key pre f post hfiles with ⟨rfl, rfl, rfl⟩ | ⟨pre1, rfl, -⟩
        · simp only [uploadAll, Option.some.injEq, Prod.mk.injEq] at hall
          rw [← hall.2, hu] at huf
          simp at huf
        · obtain ⟨r, t, rs1, hu2, -, -⟩ := (uploadAll_cons _ _ _ _ _ _ _ _ _ _).1 hall
          rw [hu] at hu2
          simp at hu2
    | ret v e =>
      cases e with
      | some e1 =>
        constructor
        · intro h
          simp only [appendLoop, hu, Prod.mk.injEq, Outcome.ret.injEq, Option.some.injEq] at h
          obtain ⟨⟨hmo, he⟩, htr⟩ := h
          refine ⟨hmo.symm, [], file, rest, [], tr, v, rfl, rfl, ?_⟩
          rw [hu, he, htr]
        · rintro ⟨hmo, pre, f, post, rs, t1, v2, hfiles, hall, huf⟩
          rcases key pre f post hfiles with ⟨rfl, rfl, rfl⟩ | ⟨pre1, rfl, -⟩
          · simp only [uploadAll, Option.some.injEq, Prod.mk.injEq] at hall
            rw [← hall.2, hu] at huf
            simp only [Prod.mk.injEq, Outcome.ret.injEq, Option.some.injEq] at huf
            simp only [appendLoop, hu, hmo, huf.1.2, huf.2]
          · obtain ⟨r, t, rs1, hu2, -, -⟩ := (uploadAll_cons _ _ _ _ _ _ _ _ _ _).1 hall
            rw [hu] at hu2
            simp at hu2
      | none =>
        cases v with
        | none =>
          constructor
          · intro h
            simp [appendLoop, hu] at h
          · rintro ⟨-, pre, f, post, rs, t1, v2, hfiles, hall, huf⟩
            rcases key pre f post hfiles with ⟨rfl, rfl, rfl⟩ | ⟨pre1, rfl, -⟩
            · simp only [uploadAll, Option.some.injEq, Prod.mk.injEq] at hall
              rw [← hall.2, hu] at huf
              simp at huf
            · obtain ⟨r, t, rs1, hu2, -, -⟩ := (uploadAll_cons _ _ _ _ _ _ _ _ _ _).1 hall
              rw [hu] at hu2
              simp at hu2
        | some r =>
          have hstep : ∃ m1, appendLoop env c batchID maxRetries d (file :: rest) m tr =
              appendLoop env c batchID maxRetries d rest m1 tr1 := by
            cases hs : r.Success with
            | true =>
              exact ⟨mapAssign m "successful" (mapIndex m "successful" ++ [r]),
                by simp only [appendLoop, hu, hs, if_true]⟩
            | false =>
              exact ⟨mapAssign m "failed" (mapIndex m "failed" ++ [r]),
                by simp [appendLoop, hu, hs]⟩
          obtain ⟨m1, hm1⟩ := hstep
          rw [hm1, ih m1 tr1 mo err tr2]
          constructor
          · rintro ⟨hmo, pre, f, post, rs, t1, v2, hfiles, hall, huf⟩
            refine ⟨hmo, file :: pre, f, post, r :: rs, t1, v2, by rw [hfiles]; rfl, ?_, huf⟩
            exact (uploadAll_cons _ _ _ _ _ _ _ _ _ _).2 ⟨r, tr1, rs, hu, hall, rfl⟩
          · rintro ⟨hmo, pre, f, post, rs, t1, v2, hfiles, hall, huf⟩
            rcases key pre f post hfiles with ⟨rfl, rfl, rfl⟩ | ⟨pre1, rfl, hrest⟩
            · simp only [uploadAll, Option.some.injEq, Prod.mk.injEq] at hall
              rw [← hall.2, hu] at huf
              simp at huf
            · obtain ⟨r2, t, rs1, hu2, hall2, -⟩ := (uploadAll_cons _ _ _ _ _ _ _ _ _ _).1 hall
              rw [hu] at hu2
              simp only [Prod.mk.injEq, Outcome.ret.injEq, Option.some.injEq, and_true] at hu2
              refine ⟨hmo, pre1, f, post, rs1, t1, v2, hrest, ?_, huf⟩
              rw [hu2.2]
              exact hall2

/-- C4: `AppendJob` returns an error exactly when the job splits into files
whose uploads, made one after the other, all return a result and no error,
followed by a file whose upload returns an error; it then returns that error
and a nil map, and it stops in the state that upload left, so that no later
file is uploaded.  When every upload returns a result and no error, whatever
the `Success` flags, `AppendJob` returns no error and ends in the state left
by the upload of the last file. -/
theorem AppendJob_error_iff (env : Env) (c : APIClient) (job : Job) (batchID : String)
    (maxRetries d : Int) (tr : Trace) :
    (∀ (mo : Option ResultMap) (err : GoError) (tr2 : Trace),
      AppendJob env c job batchID maxRetries d tr = (.ret mo (some err), tr2) ↔
        mo = none ∧ ∃ pre file post rs tr1 v,
          job.Files = pre ++ file :: post ∧
          uploadAll env c batchID maxRetries d pre tr = some (rs, tr1) ∧
          UploadFile env c file batchID maxRetries d tr1 = (.ret v (some err), tr2)) ∧
    (∀ (rs : List UploadResult) (tr2 : Trace),
      uploadAll env c batchID maxRetries d job.Files tr = some (rs, tr2) →
        ∃ m, AppendJob env c job batchID maxRetries d tr = (.ret (some m) none, tr2)) := by
  constructor
  · intro mo err tr2
    exact appendLoop_error_iff env c batchID maxRetries d job.Files _ tr mo err tr2
  · intro rs tr2 hall
    exact ⟨_, (appendLoop_partition env c batchID maxRetries d job.Files [] [] tr rs tr2 hall).1⟩

/-- Witness for C4: the first upload of the job is answered, after one
transport failure, with a body that does not decode; `AppendJob` returns that
decode error and a nil map after the two requests of the first file, and the
other two files are not uploaded. -/
theorem AppendJob_error_iff_witness :
    AppendJob (sampleEnv (flakyTransport 1 "garbage")) sampleClient sampleJob "b1" 2 5 [] =
      (.ret none (some "invalid character"),
        (UploadFile (sampleEnv (flakyTransport 1 "garbage")) sampleClient
          ⟨.bytes [1], "invoice", "one.pdf"⟩ "b1" 2 5 []).2) ∧
    requests (UploadFile (sampleEnv (flakyTransport 1 "garbage")) sampleClient
      ⟨.bytes [1], "invoice", "one.pdf"⟩ "b1" 2 5 []).2 = 2 :=
  ⟨((AppendJob_error_iff (sampleEnv (flakyTransport 1 "garbage")) sampleClient sampleJob "b1" 2 5
      []).1 none "invalid character" _).2
      ⟨rfl, [], ⟨.bytes [1], "invoice", "one.pdf"⟩, _, [], [], none, rfl, rfl, by decide⟩,
    by decide⟩

/-! ## C5 -/

/-- C5: when the request of `SearchInBrain` gets a response with status code
200 whose body decodes to an envelope, the call returns no error; with status
false, whatever the payload, the result is a `ResultsSearch` whose `Results`
is the empty, non-nil slice; with status true it is the decoded payload,
unchanged. -/
theorem SearchInBrain_lenient (env : Env) (c : APIClient) (searchParams : SearchParameters)
    (tr : Trace) (payload : String) (resp : HTTPResponse) (envelope : BrainEnvelope)
    (hmarshal : env.marshalSearchParameters searchParams = .ok payload)
    (hreq : env.newRequest "POST" (c.BaseURL ++ "/integrator/search/brain") = none)
    (hrt : env.roundTrip tr
      (jsonRequest c "POST" (c.BaseURL ++ "/integrator/search/brain") (.json payload)) =
        .response resp)
    (hcode : resp.StatusCode = 200)
    (hdec : env.decodeBrain resp.Body = .ok envelope) :
    (envelope.Status = false →
      (SearchInBrain env c searchParams tr).1 = .ret (some ⟨Slice.mk []⟩) none) ∧
    (envelope.Status = true →
      (SearchInBrain env c searchParams tr).1 = .ret (some envelope.Payload) none) := by
  have hne : ¬ resp.StatusCode ≠ 200 := by simp [hcode]
  constructor
  · intro hs
    simp only [SearchInBrain, hmarshal, sendAndDecode, sendRequest, hreq, hrt, if_neg hne, hdec, hs]
    simp
  · intro hs
    simp only [SearchInBrain, hmarshal, sendAndDecode, sendRequest, hreq, hrt, if_neg hne, hdec, hs]
    simp

/-- Witness for C5: the server answers 200 with a status-false envelope
whose payload has a nil result list; the call returns the empty, non-nil list. -/
theorem SearchInBrain_lenient_witness :
    sampleDecodeBrain "rejected" = .ok ⟨false, ⟨Slice.nil⟩⟩ ∧
    (SearchInBrain (sampleEnv (fixedTransport 200 "rejected")) sampleClient
      sampleSearchParameters []).1 = .ret (some ⟨Slice.mk []⟩) none :=
  ⟨rfl,
    (SearchInBrain_lenient (sampleEnv (fixedTransport 200 "rejected")) sampleClient
      sampleSearchParameters [] "total amount" ⟨200, "rejected"⟩ ⟨false, ⟨Slice.nil⟩⟩
      rfl rfl rfl rfl rfl).1 rfl⟩

/-! ## Responses other than 200, seen from the trace -/

theorem rejectsNon200_unchanged {α : Type} (zero : α) (tr : Trace) (out : Outcome α) :
    RejectsNon200 zero tr (out, tr) := by
  intro evs req code body hrun hmem _
  have h : evs = [] := by
    have h2 : tr ++ [] = tr ++ evs := by simpa using hrun
    exact (List.append_cancel_left h2).symm
  subst h
  simp at hmem

theorem sendAndDecode_rejectsNon200 {α β : Type} (env : Env) (c : APIClient)
    (method url : String) (body : RequestBody) (decode : String → Except GoError β) (zero : α)
    (finish : β → Outcome α) (tr : Trace) :
    RejectsNon200 zero tr (sendAndDecode env c method url body decode zero finish tr) := by
  unfold sendAndDecode sendRequest
  cases hn : env.newRequest method url with
  | some err => exact rejectsNon200_unchanged zero tr _
  | none =>
    simp only
    cases hr : env.roundTrip tr (jsonRequest c method url body) with
    | error err =>
      intro evs req code b hrun hmem _
      have h : evs = [Event.roundTrip (jsonRequest c method url body) (.error err)] :=
        (List.append_cancel_left hrun).symm
      subst h
      simp at hmem
    | response resp =>
      simp only
      by_cases hc : resp.StatusCode ≠ 200
      · rw [if_pos hc]
        intro evs req code b hrun hmem _
        have h : evs = [Event.roundTrip (jsonRequest c method url body) (.response resp)] :=
          (List.append_cancel_left hrun).symm
        subst h
        simp only [List.mem_singleton, Event.roundTrip.injEq, RoundTrip.response.injEq] at hmem
        obtain ⟨-, hresp⟩ := hmem
        subst hresp
        exact ⟨rfl, by simp⟩
      · rw [if_neg hc]
        have key : ∀ out : Outcome α, RejectsNon200 zero tr
            (out, tr ++ [Event.roundTrip (jsonRequest c method url body) (.response resp)] ++
              [Event.decode resp.Body]) := by
          intro out evs req code b hrun hmem hcode
          have h : evs = [Event.roundTrip (jsonRequest c method url body) (.response resp),
              Event.decode resp.Body] :=
            (@List.append_cancel_left Event tr _ _ (by simpa using hrun)).symm
          subst h
          simp at hmem
          obtain ⟨-, hresp⟩ := hmem
          subst hresp
          exact absurd hcode hc
        simp only
        cases hd : decode resp.Body with
        | error e => exact key _
        | ok r => exact key _

/-- The trace-side form: each of the fifteen operations built on `sendRequest`
rejects a response whose status code is not 200: whenever its run holds a
round trip answered with status code `code` other than 200, whatever the
body, the operation returns
its zero value (nil or false) and the error
`API request failed with status code: code`, and it decodes no body. -/
theorem non200_is_hard_error (env : Env) (c : APIClient) (tr : Trace)
    (textData : EntityTextExtractor) (docData : EntityDocumentExtractor) (search : Search)
    (uuid batchID name : String) (status : StatusDocument) (batchType : BatchType)
    (page limit : Int) (searchParams : SearchParameters) :
    RejectsNon200 none tr (ExtractorFromText env c textData tr) ∧
    RejectsNon200 none tr (ExtractorFromDocumentUUID env c uuid docData tr) ∧
    RejectsNon200 none tr (SearchInDocument env c search tr) ∧
    RejectsNon200 false tr (SetDocumentStatus env c uuid status tr) ∧
    RejectsNon200 none tr (GetDocumentByUUID env c uuid tr) ∧
    RejectsNon200 none tr (GetDocumentsByStatus env c status page limit tr) ∧
    RejectsNon200 none tr (GetDocumentsByStatusAndBatch env c status batchType page limit tr) ∧
    RejectsNon200 none tr (GetDocumentsByBatch env c batchID page limit tr) ∧
    RejectsNon200 false tr (ClearDocumentByUUID env c uuid tr) ∧
    RejectsNon200 false tr (DeleteBatch env c batchID tr) ∧
    RejectsNon200 false tr (DeleteDocumentFromBatch env c uuid tr) ∧
    RejectsNon200 Slice.nil tr (GetDocumentTypes env c tr) ∧
    RejectsNon200 none tr (CreateBatch env c name batchType tr) ∧
    RejectsNon200 none tr (SearchInBrain env c searchParams tr) ∧
    RejectsNon200 false tr (ProcessItem env c batchID tr) := by
  refine ⟨?_, ?_, ?_, ?_, ?_, ?_, ?_, ?_, ?_, ?_, ?_, ?_, ?_, ?_, ?_⟩
  · unfold ExtractorFromText
    cases env.marshalEntityTextExtractor textData with
    | error e => exact rejectsNon200_unchanged _ _ _
    | ok p => exact sendAndDecode_rejectsNon200 _ _ _ _ _ _ _ _ _
  · unfold ExtractorFromDocumentUUID
    cases env.marshalEntityDocumentExtractor docData with
    | error e => exact rejectsNon200_unchanged _ _ _
    | ok p => exact sendAndDecode_rejectsNon200 _ _ _ _ _ _ _ _ _
  · unfold SearchInDocument
    cases env.marshalSearch search with
    | error e => exact rejectsNon200_unchanged _ _ _
    | ok p => exact sendAndDecode_rejectsNon200 _ _ _ _ _ _ _ _ _
  · exact sendAndDecode_rejectsNon200 _ _ _ _ _ _ _ _ _
  · exact sendAndDecode_rejectsNon200 _ _ _ _ _ _ _ _ _
  · exact sendAndDecode_rejectsNon200 _ _ _ _ _ _ _ _ _
  · exact sendAndDecode_rejectsNon200 _ _ _ _ _ _ _ _ _
  · exact sendAndDecode_rejectsNon200 _ _ _ _ _ _ _ _ _
  · exact sendAndDecode_rejectsNon200 _ _ _ _ _ _ _ _ _
  · exact sendAndDecode_rejectsNon200 _ _ _ _ _ _ _ _ _
  · exact sendAndDecode_rejectsNon200 _ _ _ _ _ _ _ _ _
  · exact sendAndDecode_rejectsNon200 _ _ _ _ _ _ _ _ _
  · unfold CreateBatch
    cases env.marshalCreateBatch name batchType with
    | error e => exact rejectsNon200_unchanged _ _ _
    | ok p => exact sendAndDecode_rejectsNon200 _ _ _ _ _ _ _ _ _
  · unfold SearchInBrain
    cases env.marshalSearchParameters searchParams with
    | error e => exact rejectsNon200_unchanged _ _ _
    | ok p => exact sendAndDecode_rejectsNon200 _ _ _ _ _ _ _ _ _
  · exact sendAndDecode_rejectsNon200 _ _ _ _ _ _ _ _ _

/-- The trace-side form on `SetDocumentStatus` and `SearchInBrain`, answered
with status 404 and a body that would decode. -/
theorem non200_is_hard_error_witness :
    ((SetDocumentStatus (sampleEnv (fixedTransport 404 "true")) sampleClient "u1"
        StatusProcessed []).1 =
      .ret false (some "API request failed with status code: 404") ∧
      ∀ b, Event.decode b ∉
        [Event.roundTrip (jsonRequest sampleClient "GET"
          "https://api.example/integrator/documents/set/status/u1/processed" .nil)
          (.response ⟨404, "true"⟩)]) ∧
    ((SearchInBrain (sampleEnv (fixedTransport 404 "hit")) sampleClient
        sampleSearchParameters []).1 =
      .ret none (some "API request failed with status code: 404") ∧
      ∀ b, Event.decode b ∉
        [Event.roundTrip (jsonRequest sampleClient "POST"
          "https://api.example/integrator/search/brain" (.json "total amount"))
          (.response ⟨404, "hit"⟩)]) :=
  ⟨(non200_is_hard_error (sampleEnv (fixedTransport 404 "true")) sampleClient []
      ⟨"", .str ""⟩ ⟨"", .str ""⟩ ⟨"", "", 0⟩ "u1" "b1" "n" StatusProcessed BatchTypeTesting 1 10
      sampleSearchParameters).2.2.2.1 _ _ 404 "true" rfl (List.mem_singleton.2 rfl) (by decide),
    (non200_is_hard_error (sampleEnv (fixedTransport 404 "hit")) sampleClient []
      ⟨"", .str ""⟩ ⟨"", .str ""⟩ ⟨"", "", 0⟩ "u1" "b1" "n" StatusProcessed BatchTypeTesting 1 10
      sampleSearchParameters).2.2.2.2.2.2.2.2.2.2.2.2.2.1 _ _ 404 "hit" rfl
      (List.mem_singleton.2 rfl) (by decide)⟩

/-! ## C6 -/

theorem sendAndDecode_rejected {α β : Type} (env : Env) (c : APIClient)
    (method url : String) (body : RequestBody) (decode : String → Except GoError β) (zero : α)
    (finish : β → Outcome α) (tr : Trace) (code : Int) (respBody : String)
    (hcode : code ≠ 200) (h : Answered env c tr method url body code respBody) :
    sendAndDecode env c method url body decode zero finish tr =
      rejectedRun zero c tr method url body code respBody := by
  obtain ⟨h1, h2⟩ := h
  simp only [sendAndDecode, sendRequest, h1, h2, if_pos hcode, rejectedRun]

/-- C6: for each of the fifteen operations built on `sendRequest`: when its
request (after its body, if it has one, has been marshalled) can be built and
the transport answers it with a status code `code` other than 200, whatever
the body of the response, the operation returns its zero value (nil or
false) and the error `API request failed with status code: code`, and the
round trip is the only event of the run: no body is decoded. -/
theorem non200_status_is_hard_error (env : Env) (c : APIClient) (tr : Trace)
    (code : Int) (respBody : String) (hcode : code ≠ 200)
    (textData : EntityTextExtractor) (docData : EntityDocumentExtractor) (search : Search)
    (uuid batchID name : String) (status : StatusDocument) (batchType : BatchType)
    (page limit : Int) (searchParams : SearchParameters) :
    (∀ payload, env.marshalEntityTextExtractor textData = .ok payload →
      Answered env c tr "POST" (c.BaseURL ++ "/integrator/extractor/from/text")
        (.json payload) code respBody →
      ExtractorFromText env c textData tr =
        rejectedRun none c tr "POST" (c.BaseURL ++ "/integrator/extractor/from/text")
          (.json payload) code respBody) ∧
    (∀ payload, env.marshalEntityDocumentExtractor docData = .ok payload →
      Answered env c tr "POST" (c.BaseURL ++ "/integrator/extractor/from/document/" ++ uuid)
        (.json payload) code respBody →
      ExtractorFromDocumentUUID env c uuid docData tr =
        rejectedRun none c tr "POST"
          (c.BaseURL ++ "/integrator/extractor/from/document/" ++ uuid)
          (.json payload) code respBody) ∧
    (∀ payload, env.marshalSearch search = .ok payload →
      Answered env c tr "POST" (c.BaseURL ++ "/integrator/document/search")
        (.json payload) code respBody →
      SearchInDocument env c search tr =
        rejectedRun none c tr "POST" (c.BaseURL ++ "/integrator/document/search")
          (.json payload) code respBody) ∧
    (Answered env c tr "GET"
        (c.BaseURL ++ "/integrator/documents/set/status/" ++ uuid ++ "/" ++ status)
        .nil code respBody →
      SetDocumentStatus env c uuid status tr =
        rejectedRun false c tr "GET"
          (c.BaseURL ++ "/integrator/documents/set/status/" ++ uuid ++ "/" ++ status)
          .nil code respBody) ∧
    (Answered env c tr "GET" (c.BaseURL ++ "/integrator/document/get/by/uuid/" ++ uuid)
        .nil code respBody →
      GetDocumentByUUID env c uuid tr =
        rejectedRun none c tr "GET" (c.BaseURL ++ "/integrator/document/get/by/uuid/" ++ uuid)
          .nil code respBody) ∧
    (Answered env c tr "GET"
        (c.BaseURL ++ "/integrator/documents/by/status/" ++ status
          ++ "?page=" ++ toString page ++ "&limit=" ++ toString limit)
        .nil code respBody →
      GetDocumentsByStatus env c status page limit tr =
        rejectedRun none c tr "GET"
          (c.BaseURL ++ "/integrator/documents/by/status/" ++ status
            ++ "?page=" ++ toString page ++ "&limit=" ++ toString limit)
          .nil code respBody) ∧
    (Answered env c tr "GET"
        (c.BaseURL ++ "/integrator/documents/by/" ++ batchType ++ "/status/" ++ status
          ++ "?page=" ++ toString page ++ "&limit=" ++ toString limit)
        .nil code respBody →
      GetDocumentsByStatusAndBatch env c status batchType page limit tr =
        rejectedRun none c tr "GET"
          (c.BaseURL ++ "/integrator/documents/by/" ++ batchType ++ "/status/" ++ status
            ++ "?page=" ++ toString page ++ "&limit=" ++ toString limit)
          .nil code respBody) ∧
    (Answered env c tr "GET"
        (c.BaseURL ++ "/integrator/documents/by/id/batch/" ++ batchID
          ++ "?page=" ++ toString page ++ "&limit=" ++ toString limit)
        .nil code respBody →
      GetDocumentsByBatch env c batchID page limit tr =
        rejectedRun none c tr "GET"
          (c.BaseURL ++ "/integrator/documents/by/id/batch/" ++ batchID
            ++ "?page=" ++ toString page ++ "&limit=" ++ toString limit)
          .nil code respBody) ∧
    (Answered env c tr "GET" (c.BaseURL ++ "/integrator/clear/document/" ++ uuid)
        .nil code respBody →
      ClearDocumentByUUID env c uuid tr =
        rejectedRun false c tr "GET" (c.BaseURL ++ "/integrator/clear/document/" ++ uuid)
          .nil code respBody) ∧
    (Answered env c tr "DELETE" (c.BaseURL ++ "/integrator/delete/batch/" ++ batchID)
        .nil code respBody →
      DeleteBatch env c batchID tr =
        rejectedRun false c tr "DELETE" (c.BaseURL ++ "/integrator/delete/batch/" ++ batchID)
          .nil code respBody) ∧
    (Answered env c tr "DELETE" (c.BaseURL ++ "/integrator/delete/by/uuid/" ++ uuid)
        .nil code respBody →
      DeleteDocumentFromBatch env c uuid tr =
        rejectedRun false c tr "DELETE" (c.BaseURL ++ "/integrator/delete/by/uuid/" ++ uuid)
          .nil code respBody) ∧
    (Answered env c tr "GET" (c.BaseURL ++ "/integrator/documents/type/all/user")
        .nil code respBody →
      GetDocumentTypes env c tr =
        rejectedRun Slice.nil c tr "GET" (c.BaseURL ++ "/integrator/documents/type/all/user")
          .nil code respBody) ∧
    (∀ payload, env.marshalCreateBatch name batchType = .ok payload →
      Answered env c tr "POST" (c.BaseURL ++ "/integrator/create/batch")
        (.json payload) code respBody →
      CreateBatch env c name batchType tr =
        rejectedRun none c tr "POST" (c.BaseURL ++ "/integrator/create/batch")
          (.json payload) code respBody) ∧
    (∀ payload, env.marshalSearchParameters searchParams = .ok payload →
      Answered env c tr "POST" (c.BaseURL ++ "/integrator/search/brain")
        (.json payload) code respBody →
      SearchInBrain env c searchParams tr =
        rejectedRun none c tr "POST" (c.BaseURL ++ "/integrator/search/brain")
          (.json payload) code respBody) ∧
    (Answered env c tr "POST" (c.BaseURL ++ "/integrator/run/qa/batch/all/" ++ batchID)
        .nil code respBody →
      ProcessItem env c batchID tr =
        rejectedRun false c tr "POST" (c.BaseURL ++ "/integrator/run/qa/batch/all/" ++ batchID)
          .nil code respBody) := by
  refine ⟨?_, ?_, ?_, ?_, ?_, ?_, ?_, ?_, ?_, ?_, ?_, ?_, ?_, ?_, ?_⟩
  · intro payload hm h
    simp only [ExtractorFromText, hm]
    exact sendAndDecode_rejected _ _ _ _ _ _ _ _ _ _ _ hcode h
  · intro payload hm h
    simp only [ExtractorFromDocumentUUID, hm]
    exact sendAndDecode_rejected _ _ _ _ _ _ _ _ _ _ _ hcode h
  · intro payload hm h
    simp only [SearchInDocument, hm]
    exact sendAndDecode_rejected _ _ _ _ _ _ _ _ _ _ _ hcode h
  · intro h
    exact sendAndDecode_rejected _ _ _ _ _ _ _ _ _ _ _ hcode h
  · intro h
    exact sendAndDecode_rejected _ _ _ _ _ _ _ _ _ _ _ hcode h
  · intro h
    exact sendAndDecode_rejected _ _ _ _ _ _ _ _ _ _ _ hcode h
  · intro h
    exact sendAndDecode_rejected _ _ _ _ _ _ _ _ _ _ _ hcode h
  · intro h
    exact sendAndDecode_rejected _ _ _ _ _ _ _ _ _ _ _ hcode h
  · intro h
    exact sendAndDecode_rejected _ _ _ _ _ _ _ _ _ _ _ hcode h
  · intro h
    exact sendAndDecode_rejected _ _ _ _ _ _ _ _ _ _ _ hcode h
  · intro h
    exact sendAndDecode_rejected _ _ _ _ _ _ _ _ _ _ _ hcode h
  · intro h
    exact sendAndDecode_rejected _ _ _ _ _ _ _ _ _ _ _ hcode h
  · intro payload hm h
    simp only [CreateBatch, hm]
    exact sendAndDecode_rejected _ _ _ _ _ _ _ _ _ _ _ hcode h
  · intro payload hm h
    simp only [SearchInBrain, hm]
    exact sendAndDecode_rejected _ _ _ _ _ _ _ _ _ _ _ hcode h
  · intro h
    exact sendAndDecode_rejected _ _ _ _ _ _ _ _ _ _ _ hcode h

/-- Witness for C6: each of the fifteen operations, answered with status 404
and a body that would decode. -/
theorem non200_status_is_hard_error_witness :
    ExtractorFromText (sampleEnv (fixedTransport 404 "true")) sampleClient ⟨"some text", .str "schema"⟩ [] =
      (.ret none (some "API request failed with status code: 404"),
        [Event.roundTrip (jsonRequest sampleClient "POST"
          "https://api.example/integrator/extractor/from/text" (.json "some text"))
          (.response ⟨404, "true"⟩)]) ∧
    ExtractorFromDocumentUUID (sampleEnv (fixedTransport 404 "true")) sampleClient "u1" ⟨"total", .str "schema"⟩ [] =
      (.ret none (some "API request failed with status code: 404"),
        [Event.roundTrip (jsonRequest sampleClient "POST"
          "https://api.example/integrator/extractor/from/document/u1" (.json "total"))
          (.response ⟨404, "true"⟩)]) ∧
    SearchInDocument (sampleEnv (fixedTransport 404 "true")) sampleClient ⟨"total", "u1", 5⟩ [] =
      (.ret none (some "API request failed with status code: 404"),
        [Event.roundTrip (jsonRequest sampleClient "POST"
          "https://api.example/integrator/document/search" (.json "total"))
          (.response ⟨404, "true"⟩)]) ∧
    SetDocumentStatus (sampleEnv (fixedTransport 404 "true")) sampleClient "u1" StatusProcessed [] =
      (.ret false (some "API request failed with status code: 404"),
        [Event.roundTrip (jsonRequest sampleClient "GET"
          "https://api.example/integrator/documents/set/status/u1/processed" .nil)
          (.response ⟨404, "true"⟩)]) ∧
    GetDocumentByUUID (sampleEnv (fixedTransport 404 "true")) sampleClient "u1" [] =
      (.ret none (some "API request failed with status code: 404"),
        [Event.roundTrip (jsonRequest sampleClient "GET"
          "https://api.example/integrator/document/get/by/uuid/u1" .nil)
          (.response ⟨404, "true"⟩)]) ∧
    GetDocumentsByStatus (sampleEnv (fixedTransport 404 "true")) sampleClient StatusProcessed 1 10 [] =
      (.ret none (some "API request failed with status code: 404"),
        [Event.roundTrip (jsonRequest sampleClient "GET"
          "https://api.example/integrator/documents/by/status/processed?page=1&limit=10" .nil)
          (.response ⟨404, "true"⟩)]) ∧
    GetDocumentsByStatusAndBatch (sampleEnv (fixedTransport 404 "true")) sampleClient StatusProcessed BatchTypeTesting 1 10 [] =
      (.ret none (some "API request failed with status code: 404"),
        [Event.roundTrip (jsonRequest sampleClient "GET"
          "https://api.example/integrator/documents/by/testing/status/processed?page=1&limit=10" .nil)
          (.response ⟨404, "true"⟩)]) ∧
    GetDocumentsByBatch (sampleEnv (fixedTransport 404 "true")) sampleClient "b1" 1 10 [] =
      (.ret none (some "API request failed with status code: 404"),
        [Event.roundTrip (jsonRequest sampleClient "GET"
          "https://api.example/integrator/documents/by/id/batch/b1?page=1&limit=10" .nil)
          (.response ⟨404, "true"⟩)]) ∧
    ClearDocumentByUUID (sampleEnv (fixedTransport 404 "true")) sampleClient "u1" [] =
      (.ret false (some "API request failed with status code: 404"),
        [Event.roundTrip (jsonRequest sampleClient "GET"
          "https://api.example/integrator/clear/document/u1" .nil)
          (.response ⟨404, "true"⟩)]) ∧
    DeleteBatch (sampleEnv (fixedTransport 404 "true")) sampleClient "b1" [] =
      (.ret false (some "API request failed with status code: 404"),
        [Event.roundTrip (jsonRequest sampleClient "DELETE"
          "https://api.example/integrator/delete/batch/b1" .nil)
          (.response ⟨404, "true"⟩)]) ∧
    DeleteDocumentFromBatch (sampleEnv (fixedTransport 404 "true")) sampleClient "u1" [] =
      (.ret false (some "API request failed with status code: 404"),
        [Event.roundTrip (jsonRequest sampleClient "DELETE"
          "https://api.example/integrator/delete/by/uuid/u1" .nil)
          (.response ⟨404, "true"⟩)]) ∧
    GetDocumentTypes (sampleEnv (fixedTransport 404 "true")) sampleClient [] =
      (.ret Slice.nil (some "API request failed with status code: 404"),
        [Event.roundTrip (jsonRequest sampleClient "GET"
          "https://api.example/integrator/documents/type/all/user" .nil)
          (.response ⟨404, "true"⟩)]) ∧
    CreateBatch (sampleEnv (fixedTransport 404 "true")) sampleClient "march" BatchTypeTesting [] =
      (.ret none (some "API request failed with status code: 404"),
        [Event.roundTrip (jsonRequest sampleClient "POST"
          "https://api.example/integrator/create/batch" (.json "march"))
          (.response ⟨404, "true"⟩)]) ∧
    SearchInBrain (sampleEnv (fixedTransport 404 "true")) sampleClient sampleSearchParameters [] =
      (.ret none (some "API request failed with status code: 404"),
        [Event.roundTrip (jsonRequest sampleClient "POST"
          "https://api.example/integrator/search/brain" (.json "total amount"))
          (.response ⟨404, "true"⟩)]) ∧
    ProcessItem (sampleEnv (fixedTransport 404 "true")) sampleClient "b1" [] =
      (.ret false (some "API request failed with status code: 404"),
        [Event.roundTrip (jsonRequest sampleClient "POST"
          "https://api.example/integrator/run/qa/batch/all/b1" .nil)
          (.response ⟨404, "true"⟩)]) :=
  have h := non200_status_is_hard_error (sampleEnv (fixedTransport 404 "true")) sampleClient [] 404 "true" (by decide)
    ⟨"some text", .str "schema"⟩ ⟨"total", .str "schema"⟩ ⟨"total", "u1", 5⟩ "u1" "b1" "march"
    StatusProcessed BatchTypeTesting 1 10 sampleSearchParameters
  ⟨h.1 _ rfl ⟨rfl, rfl⟩,
    h.2.1 _ rfl ⟨rfl, rfl⟩,
    h.2.2.1 _ rfl ⟨rfl, rfl⟩,
    h.2.2.2.1 ⟨rfl, rfl⟩,
    h.2.2.2.2.1 ⟨rfl, rfl⟩,
    h.2.2.2.2.2.1 ⟨rfl, rfl⟩,
    h.2.2.2.2.2.2.1 ⟨rfl, rfl⟩,
    h.2.2.2.2.2.2.2.1 ⟨rfl, rfl⟩,
    h.2.2.2.2.2.2.2.2.1 ⟨rfl, rfl⟩,
    h.2.2.2.2.2.2.2.2.2.1 ⟨rfl, rfl⟩,
    h.2.2.2.2.2.2.2.2.2.2.1 ⟨rfl, rfl⟩,
    h.2.2.2.2.2.2.2.2.2.2.2.1 ⟨rfl, rfl⟩,
    h.2.2.2.2.2.2.2.2.2.2.2.2.1 _ rfl ⟨rfl, rfl⟩,
    h.2.2.2.2.2.2.2.2.2.2.2.2.2.1 _ rfl ⟨rfl, rfl⟩,
    h.2.2.2.2.2.2.2.2.2.2.2.2.2.2 ⟨rfl, rfl⟩⟩

/-! ## C11 -/

/-- C11 (the code departs from the claim): with `maxRetries >= 1`, a file
whose payload is bytes or a URL string and a first round trip that succeeds
with a body decoding to status true and an empty payload list, `UploadFile`
does not return at all: the index expression `result.Payload[0]` panics,
after one request and one decode.  No `UploadResult` and no error come back. -/
theorem UploadFile_status_true_empty_payload (env : Env) (c : APIClient) (file : File)
    (batchID : String) (maxRetries d : Int) (tr : Trace) (resp : HTTPResponse)
    (hfile : supported file = true) (hN : 1 ≤ maxRetries)
    (hreq : env.newRequest "POST" (uploadURL c batchID) = none)
    (hrt : env.roundTrip tr
      (uploadRequest c (uploadURL c batchID) ⟨env.randomBoundary tr, formParts file⟩) =
        .response resp)
    (hdec : env.decodeUpload resp.Body = .ok ⟨true, []⟩) :
    UploadFile env c file batchID maxRetries d tr =
        (.panic "runtime error: index out of range [0] with length 0",
          tr ++ [Event.roundTrip
            (uploadRequest c (uploadURL c batchID) ⟨env.randomBoundary tr, formParts file⟩)
            (.response resp), Event.decode resp.Body]) ∧
    ∀ (value : Option UploadResult) (err : Option GoError),
      (UploadFile env c file batchID maxRetries d tr).1 ≠ .ret value err := by
  obtain ⟨f, hf⟩ : ∃ f, maxRetries.toNat = f + 1 := ⟨maxRetries.toNat - 1, by omega⟩
  have h1 : (0 : Int) < maxRetries := by omega
  have hreq2 : env.newRequest "POST" (c.BaseURL ++ "/integrator/append/to/batch/" ++ batchID)
      = none := hreq
  have hrt2 : env.roundTrip tr (uploadRequest c
      (c.BaseURL ++ "/integrator/append/to/batch/" ++ batchID)
      ⟨env.randomBoundary tr, formParts file⟩) = .response resp := hrt
  have hrun : UploadFile env c file batchID maxRetries d tr =
      (.panic "runtime error: index out of range [0] with length 0",
        tr ++ [Event.roundTrip
          (uploadRequest c (uploadURL c batchID) ⟨env.randomBoundary tr, formParts file⟩)
          (.response resp), Event.decode resp.Body]) := by
    simp only [UploadFile, hf, uploadLoop, if_pos h1, uploadAttempt,
      uploadForm_supported file _ hfile, hreq2, hrt2, hdec, if_true, uploadURL]
  refine ⟨hrun, ?_⟩
  intro value err h
  rw [hrun] at h
  simp at h

/-- Witness for C11: the server answers 200 with a body that decodes to
status true and no payload entry; the upload panics and so does the job that
contains the file. -/
theorem UploadFile_status_true_empty_payload_witness :
    sampleDecodeUpload "bare" = .ok ⟨true, []⟩ ∧
    (UploadFile (sampleEnv (fixedTransport 200 "bare")) sampleClient sampleBytesFile "b1" 3 5 [] =
        (.panic "runtime error: index out of range [0] with length 0",
          [] ++ [Event.roundTrip
            (uploadRequest sampleClient (uploadURL sampleClient "b1")
              ⟨"b0", formParts sampleBytesFile⟩)
            (.response ⟨200, "bare"⟩), Event.decode "bare"]) ∧
      ∀ (value : Option UploadResult) (err : Option GoError),
        (UploadFile (sampleEnv (fixedTransport 200 "bare")) sampleClient sampleBytesFile "b1" 3 5
          []).1 ≠ .ret value err) ∧
    (AppendJob (sampleEnv (fixedTransport 200 "bare")) sampleClient sampleJob "b1" 3 5 []).1 =
      .panic "runtime error: index out of range [0] with length 0" :=
  ⟨rfl,
    UploadFile_status_true_empty_payload (sampleEnv (fixedTransport 200 "bare")) sampleClient
      sampleBytesFile "b1" 3 5 [] ⟨200, "bare"⟩ (by decide) (by decide) rfl rfl rfl,
    by decide⟩

end NebuiaCopilot
